import Mathlib

/-!
# Verification of the forced-aspect-generator core

Shallow embedding of the perspective-grid engine: the 3D math primitives
(`perspective/transforms.py`), the camera with its cached matrices
(`perspective/camera.py`), the grid generator with Cohen–Sutherland viewport
clipping (`perspective/grid_generator.py`), and the 3-panel corner-room layout
(`layouts/three_panel.py`, `layouts/base_layout.py`).

Python floats are modelled as real numbers.  The mutable `Camera` object is
modelled by explicit state passing: each getter returns the value together with
the (possibly updated) camera, and the fallible `fov_degrees` setter returns
the camera together with an optional error message (`none` = success), which
mirrors raise-before-mutate semantics.  The unbounded `while True` clipping
loop is modelled with a fuel parameter (`clipLoop`); the development proves
that fuel 5 always suffices, so `clip_line_to_viewport` (defined with fuel 5)
is total and faithful.
-/

open scoped Classical

noncomputable section

/-- `Point3D` from `transforms.py`: a point in 3D space. -/
structure Point3D where
  x : ℝ
  y : ℝ
  z : ℝ

/-- `Point2D` from `transforms.py`: a point in 2D screen space. -/
structure Point2D where
  x : ℝ
  y : ℝ

/-- `Vector3D` from `transforms.py`. -/
structure Vector3D where
  x : ℝ
  y : ℝ
  z : ℝ

/-- `Vector3D.normalize`: divide by the Euclidean length, or return the zero
vector when the length is zero (`np.sqrt` modelled by `Real.sqrt`). -/
def Vector3D.normalize (v : Vector3D) : Vector3D :=
  let length := Real.sqrt (v.x ^ 2 + v.y ^ 2 + v.z ^ 2)
  if length = 0 then ⟨0, 0, 0⟩ else ⟨v.x / length, v.y / length, v.z / length⟩

/-- `Vector3D.cross`: cross product. -/
def Vector3D.cross (v other : Vector3D) : Vector3D :=
  ⟨v.y * other.z - v.z * other.y,
   v.z * other.x - v.x * other.z,
   v.x * other.y - v.y * other.x⟩

/-- `Matrix4x4` from `transforms.py`, with the 16 entries of the numpy array
spelled out (`mRC` = row `R`, column `C`). -/
structure Matrix4x4 where
  m00 : ℝ
  m01 : ℝ
  m02 : ℝ
  m03 : ℝ
  m10 : ℝ
  m11 : ℝ
  m12 : ℝ
  m13 : ℝ
  m20 : ℝ
  m21 : ℝ
  m22 : ℝ
  m23 : ℝ
  m30 : ℝ
  m31 : ℝ
  m32 : ℝ
  m33 : ℝ

/-- `Matrix4x4.identity` (`np.eye(4)`). -/
def Matrix4x4.identity : Matrix4x4 :=
  ⟨1, 0, 0, 0, 0, 1, 0, 0, 0, 0, 1, 0, 0, 0, 0, 1⟩

/-- `Matrix4x4.translation`: identity with the last column set to `(x, y, z, 1)`. -/
def Matrix4x4.translation (x y z : ℝ) : Matrix4x4 :=
  ⟨1, 0, 0, x, 0, 1, 0, y, 0, 0, 1, z, 0, 0, 0, 1⟩

/-- `Matrix4x4.perspective`: OpenGL-style perspective projection matrix with
`f = 1/tan(fov/2)` (`np.tan` modelled by `Real.tan`). -/
def Matrix4x4.perspective (fov_radians aspect near far : ℝ) : Matrix4x4 :=
  let f := 1.0 / Real.tan (fov_radians / 2.0)
  ⟨f / aspect, 0, 0, 0,
   0, f, 0, 0,
   0, 0, (far + near) / (near - far), (2 * far * near) / (near - far),
   0, 0, -1, 0⟩

/-- Matrix product (`self.matrix @ other.matrix`), written out entrywise. -/
def Matrix4x4.mul (A B : Matrix4x4) : Matrix4x4 :=
  ⟨A.m00 * B.m00 + A.m01 * B.m10 + A.m02 * B.m20 + A.m03 * B.m30,
   A.m00 * B.m01 + A.m01 * B.m11 + A.m02 * B.m21 + A.m03 * B.m31,
   A.m00 * B.m02 + A.m01 * B.m12 + A.m02 * B.m22 + A.m03 * B.m32,
   A.m00 * B.m03 + A.m01 * B.m13 + A.m02 * B.m23 + A.m03 * B.m33,
   A.m10 * B.m00 + A.m11 * B.m10 + A.m12 * B.m20 + A.m13 * B.m30,
   A.m10 * B.m01 + A.m11 * B.m11 + A.m12 * B.m21 + A.m13 * B.m31,
   A.m10 * B.m02 + A.m11 * B.m12 + A.m12 * B.m22 + A.m13 * B.m32,
   A.m10 * B.m03 + A.m11 * B.m13 + A.m12 * B.m23 + A.m13 * B.m33,
   A.m20 * B.m00 + A.m21 * B.m10 + A.m22 * B.m20 + A.m23 * B.m30,
   A.m20 * B.m01 + A.m21 * B.m11 + A.m22 * B.m21 + A.m23 * B.m31,
   A.m20 * B.m02 + A.m21 * B.m12 + A.m22 * B.m22 + A.m23 * B.m32,
   A.m20 * B.m03 + A.m21 * B.m13 + A.m22 * B.m23 + A.m23 * B.m33,
   A.m30 * B.m00 + A.m31 * B.m10 + A.m32 * B.m20 + A.m33 * B.m30,
   A.m30 * B.m01 + A.m31 * B.m11 + A.m32 * B.m21 + A.m33 * B.m31,
   A.m30 * B.m02 + A.m31 * B.m12 + A.m32 * B.m22 + A.m33 * B.m32,
   A.m30 * B.m03 + A.m31 * B.m13 + A.m32 * B.m23 + A.m33 * B.m33⟩

/-- `Matrix4x4.look_at`: view matrix from eye/target/up.  The rotation part
puts `right`, `camera_up`, `-forward` into the *columns* of the upper 3×3
block (matching the numpy row literals in the source), then multiplies by the
translation by `-eye`. -/
def Matrix4x4.look_at (eye target : Point3D) (up : Vector3D) : Matrix4x4 :=
  let forward := (Vector3D.mk (target.x - eye.x) (target.y - eye.y) (target.z - eye.z)).normalize
  let right := (forward.cross up).normalize
  let camera_up := right.cross forward
  let m : Matrix4x4 :=
    ⟨right.x, camera_up.x, -forward.x, 0,
     right.y, camera_up.y, -forward.y, 0,
     right.z, camera_up.z, -forward.z, 0,
     0, 0, 0, 1⟩
  m.mul (Matrix4x4.translation (-eye.x) (-eye.y) (-eye.z))

/-- `Matrix4x4.transform_point`: homogeneous transform of `(x, y, z, 1)`,
with perspective division when the resulting `w` is nonzero. -/
def Matrix4x4.transform_point (M : Matrix4x4) (p : Point3D) : Point3D :=
  let tx := M.m00 * p.x + M.m01 * p.y + M.m02 * p.z + M.m03
  let ty := M.m10 * p.x + M.m11 * p.y + M.m12 * p.z + M.m13
  let tz := M.m20 * p.x + M.m21 * p.y + M.m22 * p.z + M.m23
  let tw := M.m30 * p.x + M.m31 * p.y + M.m32 * p.z + M.m33
  if tw ≠ 0 then ⟨tx / tw, ty / tw, tz / tw⟩ else ⟨tx, ty, tz⟩

/-- `degrees_to_radians` from `transforms.py`. -/
def degrees_to_radians (degrees : ℝ) : ℝ :=
  degrees * Real.pi / 180.0

/-- `project_to_screen` from `transforms.py`: view transform, projection
transform, then NDC-to-pixel mapping with the Y axis flipped. -/
def project_to_screen (point_3d : Point3D) (view_matrix projection_matrix : Matrix4x4)
    (screen_width screen_height : ℕ) : Point2D :=
  let view_point := view_matrix.transform_point point_3d
  let clip_point := projection_matrix.transform_point view_point
  ⟨(clip_point.x + 1.0) * 0.5 * screen_width,
   (1.0 - clip_point.y) * 0.5 * screen_height⟩

/-- `CameraConfig` from `camera.py` (defaults `near_plane = 0.1`,
`far_plane = 100.0`, `up_vector = (0, 1, 0)` are supplied at construction
sites, mirroring the dataclass defaults and `__post_init__`). -/
structure CameraConfig where
  position : Point3D
  target : Point3D
  fov_degrees : ℝ
  near_plane : ℝ
  far_plane : ℝ
  up_vector : Vector3D

/-- The mutable `Camera` object: its config plus the cached matrices
(`None` before the first computation) and the dirty flag `_needs_update`. -/
structure Camera where
  config : CameraConfig
  view_matrix : Option Matrix4x4
  projection_matrix : Option Matrix4x4
  needs_update : Bool

/-- `Camera.__init__`: caches empty, `_needs_update = True`. -/
def Camera.init (config : CameraConfig) : Camera :=
  ⟨config, none, none, true⟩

/-- `Camera._update_matrices(aspect_ratio)`: recompute and cache both matrices
from the current fields, clear the dirty flag.  (The Python default argument
`aspect_ratio=1.0` is passed explicitly at the call sites.) -/
def Camera.update_matrices (c : Camera) (aspect : ℝ) : Camera :=
  { c with
    view_matrix := some (Matrix4x4.look_at c.config.position c.config.target c.config.up_vector),
    projection_matrix := some (Matrix4x4.perspective (degrees_to_radians c.config.fov_degrees)
      aspect c.config.near_plane c.config.far_plane),
    needs_update := false }

/-- `Camera.get_view_matrix`: recompute (with default aspect 1.0) when dirty
or never computed; returns the matrix together with the updated camera. -/
def Camera.get_view_matrix (c : Camera) : Matrix4x4 × Camera :=
  if c.needs_update = true ∨ c.view_matrix = none then
    let c' := c.update_matrices 1.0
    (c'.view_matrix.getD Matrix4x4.identity, c')
  else
    (c.view_matrix.getD Matrix4x4.identity, c)

/-- `Camera.get_projection_matrix(aspect_ratio)`: recompute when dirty or
never computed, otherwise return the cached matrix (whatever aspect ratio it
was computed for); returns the matrix together with the updated camera. -/
def Camera.get_projection_matrix (c : Camera) (aspect : ℝ) : Matrix4x4 × Camera :=
  if c.needs_update = true ∨ c.projection_matrix = none then
    let c' := c.update_matrices aspect
    (c'.projection_matrix.getD Matrix4x4.identity, c')
  else
    (c.projection_matrix.getD Matrix4x4.identity, c)

/-- The `fov_degrees` property getter. -/
def Camera.fov_degrees (c : Camera) : ℝ :=
  c.config.fov_degrees

/-- The `fov_degrees` property setter: raises `ValueError` (returned as
`some message`, leaving the camera unchanged) unless `1 <= value <= 179`;
on success stores the value and sets the dirty flag. -/
def Camera.set_fov (c : Camera) (value : ℝ) : Camera × Option String :=
  if ¬(1 ≤ value ∧ value ≤ 179) then
    (c, some "FOV must be between 1 and 179 degrees")
  else
    ({ c with config := { c.config with fov_degrees := value }, needs_update := true }, none)

/-- `Panel` from `base_layout.py`. -/
structure Panel where
  label : String
  corners : List Point3D
  normal : Point3D
  panel_type : String

/-- `GridLine` from `grid_generator.py`.  The source field `end` is a Lean
keyword and is rendered here as `stop`. -/
structure GridLine where
  start : Point2D
  stop : Point2D
  panel_label : String
  line_type : String

/-- `GridConfig` from `grid_generator.py` (defaults `0.5 / True / True / 5.0 / 100`). -/
structure GridConfig where
  density : ℝ
  show_panel_boundaries : Bool
  show_panel_labels : Bool
  min_line_length : ℝ
  max_lines_per_panel : ℕ

/-- `GridGenerator._calculate_grid_spacing`: default 1.0 on non-positive
dimensions, otherwise `dimension * 0.1 / density` clamped to
`[dimension * 0.02, dimension * 0.5]`. -/
def calculate_grid_spacing (config : GridConfig) (dimension : ℝ) : ℝ :=
  if dimension ≤ 0 then 1.0
  else max (dimension * 0.02) (min (dimension * 0.1 / config.density) (dimension * 0.5))

/-- `GridGenerator._calculate_line_length`: pixel-space Euclidean length. -/
def calculate_line_length (line : GridLine) : ℝ :=
  let dx := line.stop.x - line.start.x
  let dy := line.stop.y - line.start.y
  Real.sqrt (dx * dx + dy * dy)

/-- The Cohen–Sutherland region code of `_clip_line_to_viewport.compute_code`:
bit 1 = left of `x_min`, bit 2 = right of `x_max` (elif), bit 4 = below
`y_min`, bit 8 = above `y_max` (elif). -/
def compute_code (x_min y_min x_max y_max x y : ℝ) : ℕ :=
  (if x < x_min then 1 else if x_max < x then 2 else 0) +
  (if y < y_min then 4 else if y_max < y then 8 else 0)

/-- One boundary-intersection computation of the Cohen–Sutherland loop: the
branch is selected by the bits of `code` in the order top / bottom / right /
left, exactly as in the source. -/
def clip_intersect (x_min y_min x_max y_max x1 y1 x2 y2 : ℝ) (code : ℕ) : ℝ × ℝ :=
  if code &&& 8 ≠ 0 then
    (x1 + (x2 - x1) * (y_max - y1) / (y2 - y1), y_max)
  else if code &&& 4 ≠ 0 then
    (x1 + (x2 - x1) * (y_min - y1) / (y2 - y1), y_min)
  else if code &&& 2 ≠ 0 then
    (x_max, y1 + (y2 - y1) * (x_max - x1) / (x2 - x1))
  else
    (x_min, y1 + (y2 - y1) * (x_min - x1) / (x2 - x1))

/-- The `while True` loop of `_clip_line_to_viewport`, with a fuel parameter:
`none` means the fuel ran out (proved unreachable from fuel 5 in
`clipLoop_fuel_sufficient`), `some none` is the loop's `return None` (reject),
`some (some (p, q))` its accepting return. -/
def clipLoop (x_min y_min x_max y_max : ℝ) :
    ℕ → ℝ → ℝ → ℝ → ℝ → Option (Option (Point2D × Point2D))
  | 0, _, _, _, _ => none
  | fuel + 1, x1, y1, x2, y2 =>
    let code1 := compute_code x_min y_min x_max y_max x1 y1
    let code2 := compute_code x_min y_min x_max y_max x2 y2
    if code1 = 0 ∧ code2 = 0 then
      some (some (⟨x1, y1⟩, ⟨x2, y2⟩))
    else if code1 &&& code2 ≠ 0 then
      some none
    else
      let code := if code1 ≠ 0 then code1 else code2
      let p := clip_intersect x_min y_min x_max y_max x1 y1 x2 y2 code
      if code = code1 then
        clipLoop x_min y_min x_max y_max fuel p.1 p.2 x2 y2
      else
        clipLoop x_min y_min x_max y_max fuel x1 y1 p.1 p.2

/-- `GridGenerator._clip_line_to_viewport`: viewport expanded by a margin of
`max(screen_width, screen_height) * 0.5` on every side, then the
Cohen–Sutherland loop (fuel 5 suffices, see `clipLoop_fuel_sufficient`). -/
def clip_line_to_viewport (start stop : Point2D) (screen_width screen_height : ℕ) :
    Option (Point2D × Point2D) :=
  let margin := max (screen_width : ℝ) (screen_height : ℝ) * 0.5
  (clipLoop (-margin) (-margin) ((screen_width : ℝ) + margin) ((screen_height : ℝ) + margin)
    5 start.x start.y stop.x stop.y).getD none

/-- `GridGenerator._generate_panel_boundary`: one clipped segment per
consecutive corner pair (wrapping); segments clipped away are dropped
(`if clipped_line:`). -/
def generate_panel_boundary (panel : Panel) (view_matrix projection_matrix : Matrix4x4)
    (screen_width screen_height : ℕ) : List GridLine :=
  if panel.corners.length ≠ 4 then []
  else
    (List.range 4).filterMap (fun i =>
      let start_2d := project_to_screen (panel.corners.getD i ⟨0, 0, 0⟩)
        view_matrix projection_matrix screen_width screen_height
      let end_2d := project_to_screen (panel.corners.getD ((i + 1) % 4) ⟨0, 0, 0⟩)
        view_matrix projection_matrix screen_width screen_height
      (clip_line_to_viewport start_2d end_2d screen_width screen_height).map
        (fun pq => GridLine.mk pq.1 pq.2 panel.label "boundary"))

/-- `GridGenerator._generate_floor_grid`: interior lines of a floor panel.
The `for i in range(1, num): if pos >= limit: break` loops are rendered as
`takeWhile` over `range' 1 (num - 1)`; `int(depth / grid_spacing)` is a floor
since both operands are nonnegative.  The generated lines are *not* clipped. -/
def generate_floor_grid (config : GridConfig) (panel : Panel)
    (view_matrix projection_matrix : Matrix4x4) (screen_width screen_height : ℕ) :
    List GridLine :=
  let origin := panel.corners.getD 0 ⟨0, 0, 0⟩
  let right := panel.corners.getD 1 ⟨0, 0, 0⟩
  let far_left := panel.corners.getD 3 ⟨0, 0, 0⟩
  let width := |right.x - origin.x|
  let depth := |far_left.z - origin.z|
  let grid_spacing := calculate_grid_spacing config (max width depth)
  let x_lines := ((List.range' 1 (Int.toNat ⌊depth / grid_spacing⌋)).takeWhile
      (fun i : ℕ => decide (origin.z + (i : ℝ) * grid_spacing < far_left.z))).map (fun i : ℕ =>
    GridLine.mk
      (project_to_screen ⟨origin.x, origin.y, origin.z + (i : ℝ) * grid_spacing⟩
        view_matrix projection_matrix screen_width screen_height)
      (project_to_screen ⟨right.x, origin.y, origin.z + (i : ℝ) * grid_spacing⟩
        view_matrix projection_matrix screen_width screen_height)
      panel.label "horizontal")
  let z_lines := ((List.range' 1 (Int.toNat ⌊width / grid_spacing⌋)).takeWhile
      (fun i : ℕ => decide (origin.x + (i : ℝ) * grid_spacing < right.x))).map (fun i : ℕ =>
    GridLine.mk
      (project_to_screen ⟨origin.x + (i : ℝ) * grid_spacing, origin.y, origin.z⟩
        view_matrix projection_matrix screen_width screen_height)
      (project_to_screen ⟨origin.x + (i : ℝ) * grid_spacing, origin.y, far_left.z⟩
        view_matrix projection_matrix screen_width screen_height)
      panel.label "vertical")
  x_lines ++ z_lines

/-- `GridGenerator._generate_wall_grid`: interior lines of a wall panel.  The
horizontal-line construction is identical in the source's Left/Right branches
and is written once.  The generated lines are *not* clipped. -/
def generate_wall_grid (config : GridConfig) (panel : Panel)
    (view_matrix projection_matrix : Matrix4x4) (screen_width screen_height : ℕ) :
    List GridLine :=
  let bottom_near := panel.corners.getD 0 ⟨0, 0, 0⟩
  let bottom_far := panel.corners.getD 1 ⟨0, 0, 0⟩
  let top_near := panel.corners.getD 3 ⟨0, 0, 0⟩
  let width := if panel.label = "Left Wall" then |bottom_far.z - bottom_near.z|
    else |bottom_far.x - bottom_near.x|
  let height := |top_near.y - bottom_near.y|
  if width = 0 ∨ height = 0 then []
  else
    let grid_spacing_width := calculate_grid_spacing config width
    let grid_spacing_height := calculate_grid_spacing config height
    let h_lines := ((List.range' 1 (Int.toNat ⌊height / grid_spacing_height⌋)).takeWhile
        (fun i : ℕ => decide (bottom_near.y + (i : ℝ) * grid_spacing_height < top_near.y))).map
        (fun i : ℕ =>
      GridLine.mk
        (project_to_screen
          ⟨bottom_near.x, bottom_near.y + (i : ℝ) * grid_spacing_height, bottom_near.z⟩
          view_matrix projection_matrix screen_width screen_height)
        (project_to_screen
          ⟨bottom_far.x, bottom_near.y + (i : ℝ) * grid_spacing_height, bottom_far.z⟩
          view_matrix projection_matrix screen_width screen_height)
        panel.label "horizontal")
    let v_lines :=
      if panel.label = "Left Wall" then
        ((List.range' 1 (Int.toNat ⌊width / grid_spacing_width⌋)).takeWhile
            (fun i : ℕ => decide (bottom_near.z + (i : ℝ) * grid_spacing_width < bottom_far.z))).map
            (fun i : ℕ =>
          GridLine.mk
            (project_to_screen
              ⟨bottom_near.x, bottom_near.y, bottom_near.z + (i : ℝ) * grid_spacing_width⟩
              view_matrix projection_matrix screen_width screen_height)
            (project_to_screen
              ⟨top_near.x, top_near.y, bottom_near.z + (i : ℝ) * grid_spacing_width⟩
              view_matrix projection_matrix screen_width screen_height)
            panel.label "vertical")
      else
        ((List.range' 1 (Int.toNat ⌊width / grid_spacing_width⌋)).takeWhile
            (fun i : ℕ => decide (bottom_near.x + (i : ℝ) * grid_spacing_width < bottom_far.x))).map
            (fun i : ℕ =>
          GridLine.mk
            (project_to_screen
              ⟨bottom_near.x + (i : ℝ) * grid_spacing_width, bottom_near.y, bottom_near.z⟩
              view_matrix projection_matrix screen_width screen_height)
            (project_to_screen
              ⟨bottom_near.x + (i : ℝ) * grid_spacing_width, top_near.y, top_near.z⟩
              view_matrix projection_matrix screen_width screen_height)
            panel.label "vertical")
    h_lines ++ v_lines

/-- `GridGenerator._generate_interior_grid`: dispatch on `panel_type`; panels
that are neither `"floor"` nor `"wall"` get no interior lines. -/
def generate_interior_grid (config : GridConfig) (panel : Panel)
    (view_matrix projection_matrix : Matrix4x4) (screen_width screen_height : ℕ) :
    List GridLine :=
  if panel.corners.length ≠ 4 then []
  else if panel.panel_type = "floor" then
    generate_floor_grid config panel view_matrix projection_matrix screen_width screen_height
  else if panel.panel_type = "wall" then
    generate_wall_grid config panel view_matrix projection_matrix screen_width screen_height
  else []

/-- `GridGenerator._generate_panel_grid`: optional boundary lines followed by
interior lines. -/
def generate_panel_grid (config : GridConfig) (panel : Panel)
    (view_matrix projection_matrix : Matrix4x4) (screen_width screen_height : ℕ) :
    List GridLine :=
  (if config.show_panel_boundaries then
    generate_panel_boundary panel view_matrix projection_matrix screen_width screen_height
  else []) ++
  generate_interior_grid config panel view_matrix projection_matrix screen_width screen_height

/-- `GridGenerator.generate_grid`: fetch the camera matrices (view first, then
projection at `screen_width / screen_height`), concatenate every panel's
lines, and keep only the lines of pixel length at least `min_line_length`. -/
def generate_grid (config : GridConfig) (panels : List Panel) (camera : Camera)
    (screen_width screen_height : ℕ) : List GridLine :=
  let vres := camera.get_view_matrix
  let aspect := (screen_width : ℝ) / (screen_height : ℝ)
  let pres := vres.2.get_projection_matrix aspect
  let all_lines := panels.flatMap (fun panel =>
    generate_panel_grid config panel vres.1 pres.1 screen_width screen_height)
  all_lines.filter (fun line => decide (config.min_line_length ≤ calculate_line_length line))

/-- The statistics record built by `GridGenerator.get_grid_stats`.  The
`line_types` dictionary is `none` when the key is absent (the empty-input
early return); otherwise it holds the `(horizontal, vertical, boundary)`
counters. -/
structure GridStats where
  total_lines : ℕ
  panels : List (String × ℕ)
  line_types : Option (ℕ × ℕ × ℕ)

/-- `stats["panels"]` update: insert the label with count 0 when absent, then
increment — i.e. increment in place or append `(label, 1)`. -/
def bump_panel : List (String × ℕ) → String → List (String × ℕ)
  | [], label => [(label, 1)]
  | (k, n) :: rest, label =>
    if label = k then (k, n + 1) :: rest else (k, n) :: bump_panel rest label

/-- `stats["line_types"][line_type] += 1`: `none` models the `KeyError` raised
on a line type outside the three preset keys. -/
def bump_type : ℕ × ℕ × ℕ → String → Option (ℕ × ℕ × ℕ)
  | (h, v, b), t =>
    if t = "horizontal" then some (h + 1, v, b)
    else if t = "vertical" then some (h, v + 1, b)
    else if t = "boundary" then some (h, v, b + 1)
    else none

/-- The counting loop of `get_grid_stats` over the line list. -/
def stats_loop : List GridLine → List (String × ℕ) → ℕ × ℕ × ℕ →
    Option (List (String × ℕ) × (ℕ × ℕ × ℕ))
  | [], ps, ts => some (ps, ts)
  | line :: rest, ps, ts =>
    match bump_type ts line.line_type with
    | none => none
    | some ts' => stats_loop rest (bump_panel ps line.panel_label) ts'

/-- `GridGenerator.get_grid_stats`: early `{"total_lines": 0, "panels": {}}`
(no `line_types` key) on the empty list; otherwise count per panel and per
type (`none` result models the `KeyError` on an unknown line type). -/
def get_grid_stats (lines : List GridLine) : Option GridStats :=
  if lines = [] then some ⟨0, [], none⟩
  else
    (stats_loop lines [] (0, 0, 0)).map (fun r => ⟨lines.length, r.1, some r.2⟩)

/-- `PanelDimensions` from `base_layout.py`. -/
structure PanelDimensions where
  width : ℝ
  height : ℝ
  units : String

/-- `RoomDimensions` from `base_layout.py`. -/
structure RoomDimensions where
  width : ℝ
  height : ℝ
  depth : ℝ
  units : String

/-- `LayoutConfig` from `base_layout.py`. -/
structure LayoutConfig where
  panel_dimensions : PanelDimensions
  room_dimensions : RoomDimensions
  layout_type : String

/-- `LayoutConfig.validate`: every panel and room dimension strictly positive. -/
def LayoutConfig.validate (c : LayoutConfig) : Bool :=
  if c.panel_dimensions.width ≤ 0 ∨ c.panel_dimensions.height ≤ 0 then false
  else if c.room_dimensions.width ≤ 0 ∨ c.room_dimensions.height ≤ 0 ∨
    c.room_dimensions.depth ≤ 0 then false
  else true

/-- The `to_inches` conversion table of `ThreePanelLayout._get_scale_factor`
(`dict.get` with default 1.0 for unknown units). -/
def to_inches (units : String) : ℝ :=
  if units = "inches" then 1.0
  else if units = "feet" then 12.0
  else if units = "meters" then 39.37
  else if units = "cm" then 0.3937
  else if units = "mm" then 0.0394
  else 1.0

/-- `ThreePanelLayout._get_scale_factor`: room units → inches → panel units. -/
def get_scale_factor (config : LayoutConfig) : ℝ :=
  to_inches config.room_dimensions.units / to_inches config.panel_dimensions.units

/-- `ThreePanelLayout._create_floor_panel`. -/
def create_floor_panel (width depth : ℝ) : Panel :=
  ⟨"Floor",
   [⟨0, 0, 0⟩, ⟨width, 0, 0⟩, ⟨width, 0, depth⟩, ⟨0, 0, depth⟩],
   ⟨0, 1, 0⟩, "floor"⟩

/-- `ThreePanelLayout._create_left_wall_panel`. -/
def create_left_wall_panel (depth height : ℝ) : Panel :=
  ⟨"Left Wall",
   [⟨0, 0, 0⟩, ⟨0, 0, depth⟩, ⟨0, height, depth⟩, ⟨0, height, 0⟩],
   ⟨1, 0, 0⟩, "wall"⟩

/-- `ThreePanelLayout._create_right_wall_panel`. -/
def create_right_wall_panel (width height : ℝ) : Panel :=
  ⟨"Right Wall",
   [⟨0, 0, 0⟩, ⟨width, 0, 0⟩, ⟨width, height, 0⟩, ⟨0, height, 0⟩],
   ⟨0, 0, 1⟩, "wall"⟩

/-- `ThreePanelLayout._create_panels`: floor, left wall, right wall, with the
room dimensions scaled by the unit-conversion factor. -/
def create_panels (config : LayoutConfig) : List Panel :=
  let scale := get_scale_factor config
  let width := config.room_dimensions.width * scale
  let height := config.room_dimensions.height * scale
  let depth := config.room_dimensions.depth * scale
  [create_floor_panel width depth,
   create_left_wall_panel depth height,
   create_right_wall_panel width height]

/-- `ThreePanelLayout.get_panels`: the cached `_create_panels` result (the
cache is write-once, so the returned value is the pure `_create_panels`). -/
def get_panels (config : LayoutConfig) : List Panel :=
  create_panels config

/-! ## Derived notions and concrete fixtures -/

/-- Membership in the clipping viewport expanded by the margin
`max(screen_width, screen_height) * 0.5` used in `_clip_line_to_viewport`. -/
def in_expanded_viewport (screen_width screen_height : ℕ) (p : Point2D) : Prop :=
  -(max (screen_width : ℝ) (screen_height : ℝ) * 0.5) ≤ p.x ∧
  p.x ≤ (screen_width : ℝ) + max (screen_width : ℝ) (screen_height : ℝ) * 0.5 ∧
  -(max (screen_width : ℝ) (screen_height : ℝ) * 0.5) ≤ p.y ∧
  p.y ≤ (screen_height : ℝ) + max (screen_width : ℝ) (screen_height : ℝ) * 0.5

/-- The region code of the endpoint the Cohen–Sutherland loop body picks
(`code = code1 if code1 != 0 else code2`). -/
def chosen_code (x_min y_min x_max y_max x1 y1 x2 y2 : ℝ) : ℕ :=
  if compute_code x_min y_min x_max y_max x1 y1 ≠ 0 then
    compute_code x_min y_min x_max y_max x1 y1
  else
    compute_code x_min y_min x_max y_max x2 y2

/-- The state of the clipping loop in which an intersection (and hence a
division) is computed: neither immediate accept nor immediate reject. -/
def in_clip_case (x_min y_min x_max y_max x1 y1 x2 y2 : ℝ) : Prop :=
  ¬(compute_code x_min y_min x_max y_max x1 y1 = 0 ∧
    compute_code x_min y_min x_max y_max x2 y2 = 0) ∧
  compute_code x_min y_min x_max y_max x1 y1 &&&
    compute_code x_min y_min x_max y_max x2 y2 = 0

/-- Termination measure for the Cohen–Sutherland loop: the number of the four
half-planes (left / right / bottom / top of the expanded viewport) that both
current endpoints satisfy.  Each clipping iteration strictly increases it. -/
def safe_count (x_min y_min x_max y_max x1 y1 x2 y2 : ℝ) : ℕ :=
  (if x_min ≤ x1 ∧ x_min ≤ x2 then 1 else 0) +
  (if x1 ≤ x_max ∧ x2 ≤ x_max then 1 else 0) +
  (if y_min ≤ y1 ∧ y_min ≤ y2 then 1 else 0) +
  (if y1 ≤ y_max ∧ y2 ≤ y_max then 1 else 0)

/-- Concrete test camera configuration: at `(0, 0, 8)` looking at the origin
with a 90° field of view (all derived matrix entries are rational). -/
def std_config : CameraConfig :=
  ⟨⟨0, 0, 8⟩, ⟨0, 0, 0⟩, 90, 0.1, 100, ⟨0, 1, 0⟩⟩

/-- A freshly constructed camera for `std_config`. -/
def std_camera : Camera :=
  Camera.init std_config

/-- Expected view matrix of `std_camera`: translation by `(0, 0, -8)`. -/
def std_view : Matrix4x4 :=
  ⟨1, 0, 0, 0, 0, 1, 0, 0, 0, 0, 1, -8, 0, 0, 0, 1⟩

/-- Expected projection matrix of `std_camera` at aspect ratio 1
(`f = 1/tan(45°) = 1`). -/
def std_proj : Matrix4x4 :=
  ⟨1, 0, 0, 0,
   0, 1, 0, 0,
   0, 0, (100 + 0.1) / (0.1 - 100), (2 * 100 * 0.1) / (0.1 - 100),
   0, 0, -1, 0⟩

/-- The default `GridConfig()`. -/
def std_grid_config : GridConfig :=
  ⟨0.5, true, true, 5, 100⟩

/-- The default `GridConfig()` with `show_panel_boundaries=False`. -/
def no_boundary_config : GridConfig :=
  ⟨0.5, false, true, 5, 100⟩

/-- A concrete 20×10 floor panel straddling the camera axis. -/
def std_floor : Panel :=
  ⟨"Floor", [⟨-10, 0, 0⟩, ⟨10, 0, 0⟩, ⟨10, 0, 10⟩, ⟨-10, 0, 10⟩], ⟨0, 1, 0⟩, "floor"⟩

/-- A concrete panel of the documented third type `"ceiling"`. -/
def std_ceiling : Panel :=
  ⟨"Ceiling", [⟨0, 8, 0⟩, ⟨12, 8, 0⟩, ⟨12, 8, 12⟩, ⟨0, 8, 12⟩], ⟨0, -1, 0⟩, "ceiling"⟩

/-- A concrete grid line of pixel length 5 (a 3-4-5 triangle). -/
def sample_line : GridLine :=
  GridLine.mk ⟨0, 0⟩ ⟨3, 4⟩ "Floor" "horizontal"

/-- The standard 3-panel layout configuration: 6×6 inch panels, 12×8×12 feet
room. -/
def std_layout_config : LayoutConfig :=
  ⟨⟨6, 6, "inches"⟩, ⟨12, 8, 12, "feet"⟩, "3panel"⟩

end


/-! ## Basic lemmas -/

/-- `bump_panel` increases the total of the per-panel counters by one. -/
lemma bump_panel_sum (label : String) (ps : List (String × ℕ)) :
    ((bump_panel ps label).map Prod.snd).sum = ((ps.map Prod.snd).sum) + 1 := by
  induction ps with
  | nil => simp [bump_panel]
  | cons hd rest ih =>
    obtain ⟨k, n⟩ := hd
    by_cases h : label = k
    · simp [bump_panel, h]
      omega
    · simp [bump_panel, h, ih]
      omega

/-- `bump_type` on `"horizontal"`. -/
lemma bump_type_h (h v b : ℕ) : bump_type (h, v, b) "horizontal" = some (h + 1, v, b) := by
  simp [bump_type]

/-- `bump_type` on `"vertical"`. -/
lemma bump_type_v (h v b : ℕ) : bump_type (h, v, b) "vertical" = some (h, v + 1, b) := by
  simp [bump_type]

/-- `bump_type` on `"boundary"`. -/
lemma bump_type_b (h v b : ℕ) : bump_type (h, v, b) "boundary" = some (h, v, b + 1) := by
  simp [bump_type]

/-- The counting loop of `get_grid_stats` succeeds on known line types and
adds the processed length to both running totals. -/
lemma stats_loop_spec (lines : List GridLine) :
    ∀ (ps : List (String × ℕ)) (h v b : ℕ),
    (∀ l ∈ lines, l.line_type = "horizontal" ∨ l.line_type = "vertical" ∨
      l.line_type = "boundary") →
    ∃ ps' h' v' b', stats_loop lines ps (h, v, b) = some (ps', (h', v', b')) ∧
      (ps'.map Prod.snd).sum = (ps.map Prod.snd).sum + lines.length ∧
      h' + v' + b' = h + v + b + lines.length := by
  induction lines with
  | nil =>
    intro ps h v b _
    exact ⟨ps, h, v, b, rfl, by simp, by simp⟩
  | cons l rest ih =>
    intro ps h v b htypes
    have hrest : ∀ x ∈ rest, x.line_type = "horizontal" ∨ x.line_type = "vertical" ∨
        x.line_type = "boundary" := fun x hx => htypes x (by simp [hx])
    rcases htypes l (by simp) with ht | ht | ht
    · rcases ih (bump_panel ps l.panel_label) (h + 1) v b hrest with
        ⟨ps', h', v', b', heq, hsum, hcnt⟩
      refine ⟨ps', h', v', b', ?_, ?_, by simpa using by omega⟩
      · rw [show stats_loop (l :: rest) ps (h, v, b) =
          stats_loop rest (bump_panel ps l.panel_label) (h + 1, v, b) by
            simp [stats_loop, ht, bump_type_h]]
        exact heq
      · rw [hsum, bump_panel_sum]
        simp
        omega
    · rcases ih (bump_panel ps l.panel_label) h (v + 1) b hrest with
        ⟨ps', h', v', b', heq, hsum, hcnt⟩
      refine ⟨ps', h', v', b', ?_, ?_, by simpa using by omega⟩
      · rw [show stats_loop (l :: rest) ps (h, v, b) =
          stats_loop rest (bump_panel ps l.panel_label) (h, v + 1, b) by
            simp [stats_loop, ht, bump_type_v]]
        exact heq
      · rw [hsum, bump_panel_sum]
        simp
        omega
    · rcases ih (bump_panel ps l.panel_label) h v (b + 1) hrest with
        ⟨ps', h', v', b', heq, hsum, hcnt⟩
      refine ⟨ps', h', v', b', ?_, ?_, by simpa using by omega⟩
      · rw [show stats_loop (l :: rest) ps (h, v, b) =
          stats_loop rest (bump_panel ps l.panel_label) (h, v, b + 1) by
            simp [stats_loop, ht, bump_type_b]]
        exact heq
      · rw [hsum, bump_panel_sum]
        simp
        omega

/-- Every line produced by `_generate_panel_boundary` is tagged `"boundary"`. -/
lemma generate_panel_boundary_types (panel : Panel) (view proj : Matrix4x4) (W H : ℕ) :
    ∀ l ∈ generate_panel_boundary panel view proj W H, l.line_type = "boundary" := by
  intro l hl
  unfold generate_panel_boundary at hl
  split at hl
  · simp at hl
  · rcases List.mem_filterMap.mp hl with ⟨i, _, hi⟩
    rcases Option.map_eq_some'.mp hi with ⟨pq, _, hpq⟩
    rw [← hpq]

/-! ## Claim theorems -/

/-- **C3 counterexample**: setting the field of view to 1 — a value outside
the open interval (1, 179) — *succeeds* in the code (`1 <= value <= 179` is a
closed-interval test), contradicting the claim that it must fail. -/
theorem set_fov_boundary_counterexample :
    (std_camera.set_fov 1).2 = none ∧ ¬((1 : ℝ) < 1) := by
  constructor
  · rw [Camera.set_fov, if_neg (by norm_num)]
  · norm_num

/-- **C3** (amended): `fov_degrees = v` fails exactly when `v` lies outside the
*closed* interval `[1, 179]`; on failure the camera is unchanged (atomic
validate-then-set) and on success the new value is reflected by subsequent
reads of `fov_degrees`. -/
theorem set_fov_closed_interval (c : Camera) (v : ℝ) :
    ((c.set_fov v).2 ≠ none ↔ v < 1 ∨ 179 < v) ∧
    ((c.set_fov v).2 ≠ none → (c.set_fov v).1 = c) ∧
    ((c.set_fov v).2 = none → (c.set_fov v).1.fov_degrees = v) := by
  unfold Camera.set_fov
  by_cases h : 1 ≤ v ∧ v ≤ 179
  · rw [if_neg (not_not_intro h)]
    refine ⟨?_, fun hne => absurd rfl hne, fun _ => ?_⟩
    · simp only [ne_eq, not_true_eq_false, false_iff]
      push_neg
      exact ⟨h.1, h.2⟩
    · simp [Camera.fov_degrees]
  · rw [if_pos h]
    refine ⟨?_, fun _ => rfl, fun hc => by simp at hc⟩
    simp only [ne_eq, reduceCtorEq, not_false_eq_true, true_iff]
    push_neg at h
    rcases lt_or_le v 1 with h1 | h1
    · exact Or.inl h1
    · exact Or.inr (h h1)

/-- **C3 witness**: at the standard camera, setting FOV to 180 fails and
leaves the camera unchanged, while setting it to 45 succeeds and is reflected
by a subsequent read. -/
theorem set_fov_closed_interval_witness :
    (std_camera.set_fov 180).2 ≠ none ∧ (std_camera.set_fov 180).1 = std_camera ∧
    (std_camera.set_fov 45).2 = none ∧ (std_camera.set_fov 45).1.fov_degrees = 45 := by
  have h180 : (std_camera.set_fov 180).2 ≠ none :=
    (set_fov_closed_interval std_camera 180).1.mpr (Or.inr (by norm_num))
  have h45 : (std_camera.set_fov 45).2 = none := by
    by_contra hne
    have := (set_fov_closed_interval std_camera 45).1.mp hne
    rcases this with h | h <;> norm_num at h
  exact ⟨h180, (set_fov_closed_interval std_camera 180).2.1 h180, h45,
    (set_fov_closed_interval std_camera 45).2.2 h45⟩

/-- **C4 counterexample**: on the empty list, `get_grid_stats` returns a
record with *no* per-type counts (the `line_types` key is absent), so the
claimed consistency equation over per-type counts is not even formable. -/
theorem grid_stats_empty_counterexample :
    ∃ s, get_grid_stats ([] : List GridLine) = some s ∧ s.line_types = none ∧
      s.total_lines = 0 ∧ s.panels = [] :=
  ⟨⟨0, [], none⟩, by simp [get_grid_stats], rfl, rfl, rfl⟩

/-- **C4** (amended): for any list whose line types are among the three preset
keys, `get_grid_stats` succeeds; the total equals the list length and the
per-panel counts sum to the total; the per-type counters exist only for a
nonempty list (the empty list takes the early return without a `line_types`
key) and then also sum to the total.  On a list containing any other line
type the code raises a `KeyError` instead (modelled by `none`). -/
theorem grid_stats_consistent (lines : List GridLine)
    (htypes : ∀ l ∈ lines, l.line_type = "horizontal" ∨ l.line_type = "vertical" ∨
      l.line_type = "boundary") :
    ∃ s, get_grid_stats lines = some s ∧ s.total_lines = lines.length ∧
      (s.panels.map Prod.snd).sum = s.total_lines ∧
      (lines = [] → s.line_types = none) ∧
      (lines ≠ [] → ∃ h v b, s.line_types = some (h, v, b) ∧ h + v + b = s.total_lines) := by
  by_cases hnil : lines = []
  · subst hnil
    exact ⟨⟨0, [], none⟩, by simp [get_grid_stats], rfl, by simp, fun _ => rfl,
      fun h => absurd rfl h⟩
  · rcases stats_loop_spec lines [] 0 0 0 htypes with ⟨ps', h', v', b', heq, hsum, hcnt⟩
    refine ⟨⟨lines.length, ps', some (h', v', b')⟩, ?_, rfl, ?_, fun he => absurd he hnil,
      fun _ => ⟨h', v', b', rfl, ?_⟩⟩
    · simp only [get_grid_stats, if_neg hnil, heq, Option.map_some']
    · simpa using hsum
    · simpa using hcnt

/-- **C4 witness**: the stats of a concrete one-line list are consistent. -/
theorem grid_stats_consistent_witness :
    (∀ l ∈ [sample_line], l.line_type = "horizontal" ∨ l.line_type = "vertical" ∨
      l.line_type = "boundary") ∧
    (∃ s, get_grid_stats [sample_line] = some s ∧ s.total_lines = 1 ∧
      (s.panels.map Prod.snd).sum = s.total_lines) := by
  have ht : ∀ l ∈ [sample_line], l.line_type = "horizontal" ∨ l.line_type = "vertical" ∨
      l.line_type = "boundary" := by
    intro l hl
    simp only [List.mem_singleton] at hl
    subst hl
    exact Or.inl rfl
  rcases grid_stats_consistent [sample_line] ht with ⟨s, hs, h1, h2, _⟩
  exact ⟨ht, ⟨s, hs, by simpa using h1, h2⟩⟩

/-- **C10**: a panel whose `panel_type` is neither `"floor"` nor `"wall"`
(e.g. the documented `"ceiling"`) gets no interior lines: every line generated
for it is a boundary line, and if `show_panel_boundaries` is off its
contribution is empty. -/
theorem other_panel_types_boundary_only (config : GridConfig) (panel : Panel)
    (view proj : Matrix4x4) (W H : ℕ)
    (hf : panel.panel_type ≠ "floor") (hw : panel.panel_type ≠ "wall") :
    (∀ l ∈ generate_panel_grid config panel view proj W H, l.line_type = "boundary") ∧
    (config.show_panel_boundaries = false →
      generate_panel_grid config panel view proj W H = []) := by
  have hint : generate_interior_grid config panel view proj W H = [] := by
    unfold generate_interior_grid
    by_cases h4 : panel.corners.length ≠ 4
    · rw [if_pos h4]
    · rw [if_neg h4, if_neg hf, if_neg hw]
  constructor
  · intro l hl
    unfold generate_panel_grid at hl
    rw [hint, List.append_nil] at hl
    split at hl
    · exact generate_panel_boundary_types panel view proj W H l hl
    · simp at hl
  · intro hflag
    unfold generate_panel_grid
    rw [hint, List.append_nil, hflag]
    simp

/-- **C10 witness**: a concrete ceiling panel with boundaries disabled
produces no lines at all. -/
theorem other_panel_types_boundary_only_witness :
    std_ceiling.panel_type ≠ "floor" ∧ std_ceiling.panel_type ≠ "wall" ∧
    no_boundary_config.show_panel_boundaries = false ∧
    generate_panel_grid no_boundary_config std_ceiling Matrix4x4.identity
      Matrix4x4.identity 100 100 = [] := by
  have h1 : std_ceiling.panel_type ≠ "floor" := by simp [std_ceiling]
  have h2 : std_ceiling.panel_type ≠ "wall" := by simp [std_ceiling]
  exact ⟨h1, h2, rfl,
    (other_panel_types_boundary_only no_boundary_config std_ceiling Matrix4x4.identity
      Matrix4x4.identity 100 100 h1 h2).2 rfl⟩

/-- **C6**: for a validated layout configuration, `get_panels` returns exactly
three panels — Floor, Left Wall, Right Wall — each with 4 corners whose
coordinates are the room dimensions scaled by the unit-conversion factor
(room units → inches → panel units per the fixed table); every Floor corner
has `y = 0`, every Left Wall corner `x = 0`, every Right Wall corner `z = 0`. -/
theorem three_panel_layout_spec (config : LayoutConfig) (hval : config.validate = true) :
    (to_inches "inches" = 1 ∧ to_inches "feet" = 12 ∧ to_inches "meters" = 39.37 ∧
      to_inches "cm" = 0.3937 ∧ to_inches "mm" = 0.0394) ∧
    (∃ pF pL pR, get_panels config = [pF, pL, pR] ∧
      pF.label = "Floor" ∧ pL.label = "Left Wall" ∧ pR.label = "Right Wall" ∧
      pF.corners = [⟨0, 0, 0⟩,
        ⟨config.room_dimensions.width * get_scale_factor config, 0, 0⟩,
        ⟨config.room_dimensions.width * get_scale_factor config, 0,
          config.room_dimensions.depth * get_scale_factor config⟩,
        ⟨0, 0, config.room_dimensions.depth * get_scale_factor config⟩] ∧
      pL.corners = [⟨0, 0, 0⟩,
        ⟨0, 0, config.room_dimensions.depth * get_scale_factor config⟩,
        ⟨0, config.room_dimensions.height * get_scale_factor config,
          config.room_dimensions.depth * get_scale_factor config⟩,
        ⟨0, config.room_dimensions.height * get_scale_factor config, 0⟩] ∧
      pR.corners = [⟨0, 0, 0⟩,
        ⟨config.room_dimensions.width * get_scale_factor config, 0, 0⟩,
        ⟨config.room_dimensions.width * get_scale_factor config,
          config.room_dimensions.height * get_scale_factor config, 0⟩,
        ⟨0, config.room_dimensions.height * get_scale_factor config, 0⟩] ∧
      pF.corners.length = 4 ∧ pL.corners.length = 4 ∧ pR.corners.length = 4 ∧
      (∀ c ∈ pF.corners, c.y = 0) ∧ (∀ c ∈ pL.corners, c.x = 0) ∧
      (∀ c ∈ pR.corners, c.z = 0)) := by
  refine ⟨⟨by norm_num [to_inches],
    by unfold to_inches; rw [if_neg (by decide), if_pos rfl]; norm_num,
    by unfold to_inches; rw [if_neg (by decide), if_neg (by decide), if_pos rfl],
    by unfold to_inches; rw [if_neg (by decide), if_neg (by decide), if_neg (by decide),
        if_pos rfl],
    by unfold to_inches; rw [if_neg (by decide), if_neg (by decide), if_neg (by decide),
        if_neg (by decide), if_pos rfl]⟩, ?_⟩
  refine ⟨_, _, _, rfl, rfl, rfl, rfl, rfl, rfl, rfl, rfl, rfl, rfl, ?_, ?_, ?_⟩
  · intro c hc
    simp only [create_floor_panel, List.mem_cons, List.not_mem_nil, or_false] at hc
    rcases hc with rfl | rfl | rfl | rfl <;> rfl
  · intro c hc
    simp only [create_left_wall_panel, List.mem_cons, List.not_mem_nil, or_false] at hc
    rcases hc with rfl | rfl | rfl | rfl <;> rfl
  · intro c hc
    simp only [create_right_wall_panel, List.mem_cons, List.not_mem_nil, or_false] at hc
    rcases hc with rfl | rfl | rfl | rfl <;> rfl

/-- **C6 witness**: the standard 6″ panels / 12×8×12 ft room configuration
validates and yields the three labelled panels. -/
theorem three_panel_layout_spec_witness :
    std_layout_config.validate = true ∧
    (get_panels std_layout_config).map Panel.label = ["Floor", "Left Wall", "Right Wall"] := by
  have hval : std_layout_config.validate = true := by
    norm_num [LayoutConfig.validate, std_layout_config]
  rcases (three_panel_layout_spec std_layout_config hval).2 with
    ⟨pF, pL, pR, heq, hF, hL, hR, _⟩
  exact ⟨hval, by rw [heq]; simp [hF, hL, hR]⟩

/-! ## Evaluation of the standard camera's matrices -/

/-- √64 = 8. -/
lemma sqrt_sixty_four : Real.sqrt 64 = 8 := by
  rw [show (64 : ℝ) = 8 ^ 2 by norm_num, Real.sqrt_sq (by norm_num)]

/-- The forward vector of the standard camera normalizes to `(0, 0, -1)`. -/
lemma fwd_std : (Vector3D.mk (0 : ℝ) 0 (-8)).normalize = ⟨0, 0, -1⟩ := by
  simp only [Vector3D.normalize]
  norm_num [sqrt_sixty_four]

/-- Normalizing the unit x vector is the identity. -/
lemma unit_x_std : (Vector3D.mk (1 : ℝ) 0 0).normalize = ⟨1, 0, 0⟩ := by
  simp only [Vector3D.normalize]
  norm_num

/-- The look-at matrix of the standard camera is the translation by `(0, 0, -8)`. -/
lemma look_at_std : Matrix4x4.look_at ⟨0, 0, 8⟩ ⟨0, 0, 0⟩ ⟨0, 1, 0⟩ = std_view := by
  simp only [Matrix4x4.look_at, Vector3D.cross]
  norm_num [fwd_std]
  norm_num [unit_x_std, Matrix4x4.mul, Matrix4x4.translation, std_view]

/-- `tan` of half the standard field of view (90°) is 1. -/
lemma tan_half_right_angle : Real.tan (degrees_to_radians 90 / 2.0) = 1 := by
  rw [show degrees_to_radians 90 / 2.0 = Real.pi / 4 by unfold degrees_to_radians; ring_nf]
  exact Real.tan_pi_div_four

/-- The perspective matrix of the standard camera at aspect ratio 1. -/
lemma perspective_std : Matrix4x4.perspective (degrees_to_radians 90) 1 0.1 100 = std_proj := by
  simp only [Matrix4x4.perspective, tan_half_right_angle, std_proj]
  norm_num

/-- Evaluating `get_view_matrix` on the fresh standard camera: it computes and
caches *both* matrices, the projection one for the default aspect ratio 1.0. -/
lemma std_camera_view_eval :
    std_camera.get_view_matrix = (std_view, ⟨std_config, some std_view, some std_proj, false⟩) := by
  unfold std_camera Camera.init Camera.get_view_matrix Camera.update_matrices
  rw [if_pos (Or.inl rfl)]
  simp only [std_config]
  rw [show (1.0 : ℝ) = 1 by norm_num, look_at_std, perspective_std]
  simp

/-- A camera holding cached matrices with a clear dirty flag returns the
cached projection matrix for *any* requested aspect ratio. -/
lemma std_camera_proj_cached (a : ℝ) :
    (Camera.mk std_config (some std_view) (some std_proj) false).get_projection_matrix a =
      (std_proj, Camera.mk std_config (some std_view) (some std_proj) false) := by
  unfold Camera.get_projection_matrix
  rw [if_neg (by simp)]
  rfl

/-- **C1 (code bug)**: on a fresh camera, calling `get_view_matrix()` first
(as `generate_grid` does) caches a projection matrix computed for the default
aspect ratio 1.0 and clears the dirty flag, so a subsequent
`get_projection_matrix(2.0)` returns that stale matrix (entry `[0][0] = f/1`)
instead of the perspective matrix for the supplied aspect ratio 2.0 (entry
`[0][0] = f/2`). -/
theorem projection_matrix_stale_aspect :
    ((std_camera.get_view_matrix).2.get_projection_matrix 2).1 = std_proj ∧
    std_proj.m00 = 1 ∧
    (Matrix4x4.perspective (degrees_to_radians 90) 2 0.1 100).m00 = 1 / 2 ∧
    ((std_camera.get_view_matrix).2.get_projection_matrix 2).1 ≠
      Matrix4x4.perspective (degrees_to_radians 90) 2 0.1 100 := by
  have h1 : ((std_camera.get_view_matrix).2.get_projection_matrix 2).1 = std_proj := by
    rw [std_camera_view_eval, std_camera_proj_cached]
  have h2 : (Matrix4x4.perspective (degrees_to_radians 90) 2 0.1 100).m00 = 1 / 2 := by
    simp only [Matrix4x4.perspective, tan_half_right_angle]
    norm_num
  refine ⟨h1, rfl, h2, ?_⟩
  intro h
  have := congrArg Matrix4x4.m00 h
  rw [h1, h2] at this
  have hstd : std_proj.m00 = 1 := rfl
  rw [hstd] at this
  norm_num at this

/-! ## Evaluation of concrete projections and grid membership -/

/-- Projecting `(-10, 0, 4)` through the standard matrices lands at `(-75, 50)`
— outside the expanded viewport `[-50, 150]`. -/
lemma project_left_point : project_to_screen ⟨-10, 0, 4⟩ std_view std_proj 100 100 = ⟨-75, 50⟩ := by
  simp only [project_to_screen, Matrix4x4.transform_point, std_view, std_proj]
  norm_num

/-- Projecting `(10, 0, 4)` through the standard matrices lands at `(175, 50)`. -/
lemma project_right_point : project_to_screen ⟨10, 0, 4⟩ std_view std_proj 100 100 = ⟨175, 50⟩ := by
  simp only [project_to_screen, Matrix4x4.transform_point, std_view, std_proj]
  norm_num

/-- When the first interior grid position of a floor panel lies strictly
inside, the floor grid starts with the corresponding (unclipped) horizontal
line. -/
lemma generate_floor_grid_head (config : GridConfig) (panel : Panel)
    (view proj : Matrix4x4) (W H : ℕ) (origin right far_left : Point3D) (s : ℝ)
    (h0 : panel.corners.getD 0 ⟨0, 0, 0⟩ = origin)
    (h1 : panel.corners.getD 1 ⟨0, 0, 0⟩ = right)
    (h3 : panel.corners.getD 3 ⟨0, 0, 0⟩ = far_left)
    (hs : calculate_grid_spacing config (max |right.x - origin.x| |far_left.z - origin.z|) = s)
    (hn : 1 ≤ Int.toNat ⌊|far_left.z - origin.z| / s⌋)
    (hq : origin.z + 1 * s < far_left.z) :
    GridLine.mk (project_to_screen ⟨origin.x, origin.y, origin.z + 1 * s⟩ view proj W H)
      (project_to_screen ⟨right.x, origin.y, origin.z + 1 * s⟩ view proj W H)
      panel.label "horizontal" ∈ generate_floor_grid config panel view proj W H := by
  obtain ⟨k, hk⟩ : ∃ k, Int.toNat ⌊|far_left.z - origin.z| / s⌋ = k + 1 :=
    ⟨Int.toNat ⌊|far_left.z - origin.z| / s⌋ - 1, (Nat.succ_pred_eq_of_pos hn).symm⟩
  have hpa : (fun i : ℕ => decide (origin.z + ↑i * s < far_left.z)) 1 = true :=
    decide_eq_true (by push_cast; exact hq)
  simp only [generate_floor_grid, h0, h1, h3, hs, hk]
  rw [List.range'_succ, List.takeWhile_cons, if_pos hpa, List.map_cons, List.cons_append]
  push_cast
  exact List.mem_cons_self _ _

/-- The unclipped interior floor line at `z = 4` of the standard scene is among
the lines returned by `generate_grid` (its left endpoint is at pixel `x = -75`). -/
lemma std_line1_mem :
    GridLine.mk ⟨-75, 50⟩ ⟨175, 50⟩ "Floor" "horizontal" ∈
      generate_grid std_grid_config [std_floor] std_camera 100 100 := by
  have hs : calculate_grid_spacing std_grid_config
      (max |(⟨10, 0, 0⟩ : Point3D).x - (⟨-10, 0, 0⟩ : Point3D).x|
        |(⟨-10, 0, 10⟩ : Point3D).z - (⟨-10, 0, 0⟩ : Point3D).z|) = 4 := by
    show calculate_grid_spacing std_grid_config (max |(10 : ℝ) - -10| |(10 : ℝ) - 0|) = 4
    rw [show |(10 : ℝ) - -10| = 20 by rw [abs_of_nonneg] <;> norm_num,
      show |(10 : ℝ) - 0| = 10 by rw [abs_of_nonneg] <;> norm_num,
      max_eq_left (by norm_num)]
    unfold calculate_grid_spacing std_grid_config
    rw [if_neg (by norm_num)]
    norm_num [min_def, max_def]
  have hfl : ⌊|(⟨-10, 0, 10⟩ : Point3D).z - (⟨-10, 0, 0⟩ : Point3D).z| / (4 : ℝ)⌋ = 2 := by
    show ⌊|(10 : ℝ) - 0| / (4 : ℝ)⌋ = 2
    rw [show |(10 : ℝ) - 0| = 10 by rw [abs_of_nonneg] <;> norm_num]
    apply Int.floor_eq_iff.mpr
    constructor <;> norm_num
  have hmem := generate_floor_grid_head std_grid_config std_floor std_view std_proj
    100 100 ⟨-10, 0, 0⟩ ⟨10, 0, 0⟩ ⟨-10, 0, 10⟩ 4 rfl rfl rfl hs
    (by rw [hfl]; norm_num) (by show (0 : ℝ) + 1 * 4 < 10; norm_num)
  have hline : GridLine.mk
      (project_to_screen ⟨(⟨-10, 0, 0⟩ : Point3D).x, (⟨-10, 0, 0⟩ : Point3D).y,
        (⟨-10, 0, 0⟩ : Point3D).z + 1 * 4⟩ std_view std_proj 100 100)
      (project_to_screen ⟨(⟨10, 0, 0⟩ : Point3D).x, (⟨-10, 0, 0⟩ : Point3D).y,
        (⟨-10, 0, 0⟩ : Point3D).z + 1 * 4⟩ std_view std_proj 100 100)
      std_floor.label "horizontal" =
      GridLine.mk ⟨-75, 50⟩ ⟨175, 50⟩ "Floor" "horizontal" := by
    show GridLine.mk (project_to_screen ⟨-10, 0, 0 + 1 * 4⟩ std_view std_proj 100 100)
      (project_to_screen ⟨10, 0, 0 + 1 * 4⟩ std_view std_proj 100 100) "Floor" "horizontal" = _
    rw [show ((0 : ℝ) + 1 * 4) = 4 by norm_num, project_left_point, project_right_point]
  rw [hline] at hmem
  have hlen : calculate_line_length (GridLine.mk ⟨-75, 50⟩ ⟨175, 50⟩ "Floor" "horizontal") = 250 := by
    show Real.sqrt (((175 : ℝ) - -75) * ((175 : ℝ) - -75) + ((50 : ℝ) - 50) * ((50 : ℝ) - 50)) = 250
    rw [show ((175 : ℝ) - -75) * ((175 : ℝ) - -75) + ((50 : ℝ) - 50) * ((50 : ℝ) - 50) = 250 ^ 2
      by norm_num, Real.sqrt_sq (by norm_num)]
  simp only [generate_grid, std_camera_view_eval, std_camera_proj_cached]
  apply List.mem_filter.mpr
  refine ⟨?_, decide_eq_true (by rw [hlen]; show (5 : ℝ) ≤ 250; norm_num)⟩
  apply List.mem_flatMap.mpr
  refine ⟨std_floor, by simp, ?_⟩
  unfold generate_panel_grid
  apply List.mem_append_right
  unfold generate_interior_grid
  rw [if_neg (by simp [std_floor]), if_pos (show std_floor.panel_type = "floor" from rfl)]
  exact hmem

/-- **C2 (code bug)**: interior grid lines are emitted without any viewport
clipping: in a concrete scene, `generate_grid` returns an interior line whose
start endpoint (pixel `x = -75`) lies outside the viewport expanded by the
margin `0.5 * max(W, H) = 50`. -/
theorem interior_lines_escape_viewport :
    ∃ l ∈ generate_grid std_grid_config [std_floor] std_camera 100 100,
      ¬ in_expanded_viewport 100 100 l.start := by
  refine ⟨GridLine.mk ⟨-75, 50⟩ ⟨175, 50⟩ "Floor" "horizontal", std_line1_mem, ?_⟩
  intro h
  have h1 := h.1
  norm_num [in_expanded_viewport] at h1

/-- **C5**: every line returned by `generate_grid` has pixel-space Euclidean
length at least `min_line_length` (the final filter keeps exactly those). -/
theorem min_length_filter (config : GridConfig) (panels : List Panel) (camera : Camera)
    (W H : ℕ) : ∀ l ∈ generate_grid config panels camera W H,
    config.min_line_length ≤ calculate_line_length l := by
  intro l hl
  simp only [generate_grid] at hl
  exact of_decide_eq_true (List.mem_filter.mp hl).2

/-- **C5 witness**: a concrete returned line has length 250 ≥ 5. -/
theorem min_length_filter_witness :
    GridLine.mk ⟨-75, 50⟩ ⟨175, 50⟩ "Floor" "horizontal" ∈
      generate_grid std_grid_config [std_floor] std_camera 100 100 ∧
    std_grid_config.min_line_length ≤
      calculate_line_length (GridLine.mk ⟨-75, 50⟩ ⟨175, 50⟩ "Floor" "horizontal") :=
  ⟨std_line1_mem,
    min_length_filter std_grid_config [std_floor] std_camera 100 100 _ std_line1_mem⟩

/-! ## Cohen–Sutherland region-code characterizations -/

/-- The region code is 0 exactly when the point is inside the closed rectangle. -/
lemma compute_code_eq_zero_iff (x_min y_min x_max y_max x y : ℝ) :
    compute_code x_min y_min x_max y_max x y = 0 ↔
      x_min ≤ x ∧ x ≤ x_max ∧ y_min ≤ y ∧ y ≤ y_max := by
  constructor
  · intro h
    unfold compute_code at h
    split_ifs at h <;> try omega
    exact ⟨by linarith, by linarith, by linarith, by linarith⟩
  · rintro ⟨h1, h2, h3, h4⟩
    unfold compute_code
    rw [if_neg (not_lt.mpr h1), if_neg (not_lt.mpr h2), if_neg (not_lt.mpr h3),
      if_neg (not_lt.mpr h4)]

/-- Bit 8 of the region code: above the top boundary (needs `y_min ≤ y_max`
because of the `elif`). -/
lemma code_bit8 (x_min y_min x_max y_max x y : ℝ) (hy : y_min ≤ y_max) :
    compute_code x_min y_min x_max y_max x y &&& 8 ≠ 0 ↔ y_max < y := by
  unfold compute_code
  split_ifs <;>
    first
      | exact iff_of_true (by decide) (by assumption)
      | exact iff_of_false (by decide) (by linarith)

/-- Bit 4 of the region code: below the bottom boundary. -/
lemma code_bit4 (x_min y_min x_max y_max x y : ℝ) :
    compute_code x_min y_min x_max y_max x y &&& 4 ≠ 0 ↔ y < y_min := by
  unfold compute_code
  split_ifs <;>
    first
      | exact iff_of_true (by decide) (by assumption)
      | exact iff_of_false (by decide) (by linarith)

/-- Bit 2 of the region code: right of the right boundary (needs
`x_min ≤ x_max` because of the `elif`). -/
lemma code_bit2 (x_min y_min x_max y_max x y : ℝ) (hx : x_min ≤ x_max) :
    compute_code x_min y_min x_max y_max x y &&& 2 ≠ 0 ↔ x_max < x := by
  unfold compute_code
  split_ifs <;>
    first
      | exact iff_of_true (by decide) (by assumption)
      | exact iff_of_false (by decide) (by linarith)

/-- Bit 1 of the region code: left of the left boundary. -/
lemma code_bit1 (x_min y_min x_max y_max x y : ℝ) :
    compute_code x_min y_min x_max y_max x y &&& 1 ≠ 0 ↔ x < x_min := by
  unfold compute_code
  split_ifs <;>
    first
      | exact iff_of_true (by decide) (by assumption)
      | exact iff_of_false (by decide) (by linarith)

/-- A nonzero region code with bits 8, 4 and 2 clear means the point is left
of the left boundary (the loop's final `elif code & 1` branch). -/
lemma code_left_of (x_min y_min x_max y_max x y : ℝ) (hx : x_min ≤ x_max) (hy : y_min ≤ y_max)
    (h0 : compute_code x_min y_min x_max y_max x y ≠ 0)
    (h8 : compute_code x_min y_min x_max y_max x y &&& 8 = 0)
    (h4 : compute_code x_min y_min x_max y_max x y &&& 4 = 0)
    (h2 : compute_code x_min y_min x_max y_max x y &&& 2 = 0) : x < x_min := by
  have hyt : ¬(y_max < y) := fun hc => (code_bit8 x_min y_min x_max y_max x y hy).mpr hc h8
  have hyb : ¬(y < y_min) := fun hc => (code_bit4 x_min y_min x_max y_max x y).mpr hc h4
  have hxr : ¬(x_max < x) := fun hc => (code_bit2 x_min y_min x_max y_max x y hx).mpr hc h2
  by_contra hxl
  exact h0 ((compute_code_eq_zero_iff x_min y_min x_max y_max x y).mpr
    ⟨not_lt.mp hxl, not_lt.mp hxr, not_lt.mp hyb, not_lt.mp hyt⟩)

/-- A set bit of `a &&& 2^i ≠ 0` form, via `testBit`. -/
lemma land_pow_ne {a i : ℕ} : a &&& 2 ^ i ≠ 0 ↔ a.testBit i = true := by
  rw [Nat.and_two_pow]
  cases h : a.testBit i <;> simp [h]

/-- Two codes with zero bitwise AND share no set bit. -/
lemma disjoint_bit {a b i : ℕ} (h : a &&& b = 0) (ha : a &&& 2 ^ i ≠ 0) : b &&& 2 ^ i = 0 := by
  by_contra hb
  have hb' : b.testBit i = true := land_pow_ne.mp hb
  have ha' : a.testBit i = true := land_pow_ne.mp ha
  have hab : (a &&& b).testBit i = true := by
    rw [Nat.testBit_and, ha', hb']
    rfl
  rw [h] at hab
  simp at hab

/-- Specialization of `disjoint_bit` to bit 8. -/
lemma disjoint_bit8 {a b : ℕ} (h : a &&& b = 0) (ha : a &&& 8 ≠ 0) : b &&& 8 = 0 := by
  have := disjoint_bit (i := 3) h (by rw [show (2 : ℕ) ^ 3 = 8 by norm_num]; exact ha)
  rwa [show (2 : ℕ) ^ 3 = 8 by norm_num] at this

/-- Specialization of `disjoint_bit` to bit 4. -/
lemma disjoint_bit4 {a b : ℕ} (h : a &&& b = 0) (ha : a &&& 4 ≠ 0) : b &&& 4 = 0 := by
  have := disjoint_bit (i := 2) h (by rw [show (2 : ℕ) ^ 2 = 4 by norm_num]; exact ha)
  rwa [show (2 : ℕ) ^ 2 = 4 by norm_num] at this

/-- Specialization of `disjoint_bit` to bit 2. -/
lemma disjoint_bit2 {a b : ℕ} (h : a &&& b = 0) (ha : a &&& 2 ≠ 0) : b &&& 2 = 0 := by
  have := disjoint_bit (i := 1) h (by rw [show (2 : ℕ) ^ 1 = 2 by norm_num]; exact ha)
  rwa [show (2 : ℕ) ^ 1 = 2 by norm_num] at this

/-- Specialization of `disjoint_bit` to bit 1. -/
lemma disjoint_bit1 {a b : ℕ} (h : a &&& b = 0) (ha : a &&& 1 ≠ 0) : b &&& 1 = 0 := by
  have := disjoint_bit (i := 0) h (by rw [show (2 : ℕ) ^ 0 = 1 by norm_num]; exact ha)
  rwa [show (2 : ℕ) ^ 0 = 1 by norm_num] at this

/-! ## Interpolation and counting helpers -/

/-- Bounds for the linear-interpolation parameter `(m - u) / (v - u)` when the
boundary value `m` separates the two endpoint coordinates (chosen endpoint
strictly outside, other endpoint weakly inside). -/
lemma interp_bounds {u v m : ℝ}
    (h : (v ≤ m ∧ m < u) ∨ (u ≤ m ∧ m < v) ∨ (m ≤ v ∧ u < m) ∨ (m ≤ u ∧ v < m)) :
    v - u ≠ 0 ∧ 0 ≤ (m - u) / (v - u) ∧ (m - u) / (v - u) ≤ 1 ∧
      u + (m - u) / (v - u) * (v - u) = m := by
  have hne : v - u ≠ 0 := by
    rcases h with ⟨a, b⟩ | ⟨a, b⟩ | ⟨a, b⟩ | ⟨a, b⟩ <;> intro hc <;>
      (have hvu : v = u := by linarith) <;> linarith
  refine ⟨hne, ?_, ?_, by rw [div_mul_cancel₀ _ hne]; ring⟩
  · rcases h with ⟨a, b⟩ | ⟨a, b⟩ | ⟨a, b⟩ | ⟨a, b⟩
    · exact div_nonneg_iff.mpr (Or.inr ⟨by linarith, by linarith⟩)
    · exact div_nonneg (by linarith) (by linarith)
    · exact div_nonneg (by linarith) (by linarith)
    · exact div_nonneg_iff.mpr (Or.inr ⟨by linarith, by linarith⟩)
  · rcases h with ⟨a, b⟩ | ⟨a, b⟩ | ⟨a, b⟩ | ⟨a, b⟩
    · rw [div_le_one_iff]
      exact Or.inr (Or.inr ⟨by linarith, by linarith⟩)
    · rw [div_le_one (by linarith)]
      linarith
    · rw [div_le_one (by linarith)]
      linarith
    · rw [div_le_one_iff]
      exact Or.inr (Or.inr ⟨by linarith, by linarith⟩)

/-- A point `a + s*(b - a)` with `s ∈ [0,1]` stays above any common lower bound. -/
lemma between_lb {a b t s : ℝ} (h1 : t ≤ a) (h2 : t ≤ b) (hs0 : 0 ≤ s) (hs1 : s ≤ 1) :
    t ≤ a + s * (b - a) := by
  nlinarith [mul_nonneg hs0 (by linarith : (0 : ℝ) ≤ b - t),
    mul_nonneg (by linarith : (0 : ℝ) ≤ 1 - s) (by linarith : (0 : ℝ) ≤ a - t)]

/-- A point `a + s*(b - a)` with `s ∈ [0,1]` stays below any common upper bound. -/
lemma between_ub {a b t s : ℝ} (h1 : a ≤ t) (h2 : b ≤ t) (hs0 : 0 ≤ s) (hs1 : s ≤ 1) :
    a + s * (b - a) ≤ t := by
  nlinarith [mul_nonneg hs0 (by linarith : (0 : ℝ) ≤ t - b),
    mul_nonneg (by linarith : (0 : ℝ) ≤ 1 - s) (by linarith : (0 : ℝ) ≤ t - a)]

/-- Monotonicity of a 0/1 indicator. -/
lemma ite_mono_prop {A B : Prop} [Decidable A] [Decidable B] (h : A → B) :
    (if A then (1 : ℕ) else 0) ≤ (if B then (1 : ℕ) else 0) := by
  by_cases hA : A
  · rw [if_pos hA, if_pos (h hA)]
  · rw [if_neg hA]
    exact Nat.zero_le _

/-- A 0/1 indicator is at most 1. -/
lemma indicator_le_one {A : Prop} [Decidable A] : (if A then (1 : ℕ) else 0) ≤ 1 := by
  split_ifs <;> omega

/-! ## The Cohen–Sutherland clipping step -/

/-- Full analysis of one clipping iteration in the non-accept, non-reject
case: the divisor of the computed intersection is nonzero, the new point is a
convex combination `P1 + s*(P2 - P1)` with `s ∈ [0, 1]`, and replacing the
chosen endpoint strictly increases the `safe_count` measure. -/
lemma clip_step_analysis (xmin ymin xmax ymax : ℝ) (hx : xmin ≤ xmax) (hy : ymin ≤ ymax)
    (x1 y1 x2 y2 : ℝ) (code : ℕ) (p : ℝ × ℝ)
    (hcase : ¬(compute_code xmin ymin xmax ymax x1 y1 = 0 ∧
      compute_code xmin ymin xmax ymax x2 y2 = 0))
    (hrej : compute_code xmin ymin xmax ymax x1 y1 &&&
      compute_code xmin ymin xmax ymax x2 y2 = 0)
    (hcode : code = chosen_code xmin ymin xmax ymax x1 y1 x2 y2)
    (hp : p = clip_intersect xmin ymin xmax ymax x1 y1 x2 y2 code) :
    ((code &&& 8 ≠ 0 ∨ code &&& 4 ≠ 0) → y2 ≠ y1) ∧
    (code &&& 8 = 0 → code &&& 4 = 0 → x2 ≠ x1) ∧
    ∃ s : ℝ, 0 ≤ s ∧ s ≤ 1 ∧ p.1 = x1 + s * (x2 - x1) ∧ p.2 = y1 + s * (y2 - y1) ∧
      (code = compute_code xmin ymin xmax ymax x1 y1 →
        safe_count xmin ymin xmax ymax x1 y1 x2 y2 + 1 ≤
          safe_count xmin ymin xmax ymax p.1 p.2 x2 y2) ∧
      (code ≠ compute_code xmin ymin xmax ymax x1 y1 →
        safe_count xmin ymin xmax ymax x1 y1 x2 y2 + 1 ≤
          safe_count xmin ymin xmax ymax x1 y1 p.1 p.2) := by
  have hsplit : (code = compute_code xmin ymin xmax ymax x1 y1 ∧
      compute_code xmin ymin xmax ymax x1 y1 ≠ 0) ∨
      (code = compute_code xmin ymin xmax ymax x2 y2 ∧
        compute_code xmin ymin xmax ymax x1 y1 = 0 ∧
        compute_code xmin ymin xmax ymax x2 y2 ≠ 0) := by
    by_cases hne1 : compute_code xmin ymin xmax ymax x1 y1 ≠ 0
    · left
      unfold chosen_code at hcode
      rw [if_pos hne1] at hcode
      exact ⟨hcode, hne1⟩
    · right
      push_neg at hne1
      unfold chosen_code at hcode
      rw [if_neg (not_not_intro hne1)] at hcode
      exact ⟨hcode, hne1, fun hc => hcase ⟨hne1, hc⟩⟩
  by_cases hb8 : code &&& 8 ≠ 0
  · -- top branch
    have hfacts : (code = compute_code xmin ymin xmax ymax x1 y1 →
        ymax < y1 ∧ y2 ≤ ymax) ∧
        (code ≠ compute_code xmin ymin xmax ymax x1 y1 → ymax < y2 ∧ y1 ≤ ymax) := by
      rcases hsplit with ⟨hceq, hne⟩ | ⟨hceq, h1z, h2nz⟩
      · refine ⟨fun _ => ⟨?_, ?_⟩, fun hcc => absurd hceq hcc⟩
        · exact (code_bit8 xmin ymin xmax ymax x1 y1 hy).mp (by rw [← hceq]; exact hb8)
        · have hd := disjoint_bit8 hrej (by rw [← hceq]; exact hb8)
          exact not_lt.mp (fun hc => (code_bit8 xmin ymin xmax ymax x2 y2 hy).mpr hc hd)
      · have hne : code ≠ compute_code xmin ymin xmax ymax x1 y1 := by
          rw [hceq, h1z]
          exact h2nz
        refine ⟨fun hcc => absurd hcc hne, fun _ => ⟨?_, ?_⟩⟩
        · exact (code_bit8 xmin ymin xmax ymax x2 y2 hy).mp (by rw [← hceq]; exact hb8)
        · exact ((compute_code_eq_zero_iff xmin ymin xmax ymax x1 y1).mp h1z).2.2.2
    have hpp : p = (x1 + (x2 - x1) * (ymax - y1) / (y2 - y1), ymax) := by
      rw [hp]
      unfold clip_intersect
      rw [if_pos hb8]
    have hdisj : (y2 ≤ ymax ∧ ymax < y1) ∨ (y1 ≤ ymax ∧ ymax < y2) ∨
        (ymax ≤ y2 ∧ y1 < ymax) ∨ (ymax ≤ y1 ∧ y2 < ymax) := by
      by_cases hcc : code = compute_code xmin ymin xmax ymax x1 y1
      · obtain ⟨a, b⟩ := hfacts.1 hcc
        exact Or.inl ⟨b, a⟩
      · obtain ⟨a, b⟩ := hfacts.2 hcc
        exact Or.inr (Or.inl ⟨b, a⟩)
    obtain ⟨hden, hs0, hs1, hieq⟩ := interp_bounds (u := y1) (v := y2) (m := ymax) hdisj
    have hpx : p.1 = x1 + (ymax - y1) / (y2 - y1) * (x2 - x1) := by
      simp only [hpp]
      ring
    have hpy : p.2 = y1 + (ymax - y1) / (y2 - y1) * (y2 - y1) := by
      simp only [hpp]
      exact hieq.symm
    have hp2 : p.2 = ymax := by simp [hpp]
    refine ⟨fun _ => sub_ne_zero.mp hden, fun h8' _ => (hb8 h8').elim,
      (ymax - y1) / (y2 - y1), hs0, hs1, hpx, hpy, ?_, ?_⟩
    · intro hcc
      obtain ⟨hstrict, hother⟩ := hfacts.1 hcc
      have hL := ite_mono_prop (A := xmin ≤ x1 ∧ xmin ≤ x2) (B := xmin ≤ p.1 ∧ xmin ≤ x2)
        (fun hAB => ⟨by rw [hpx]; exact between_lb hAB.1 hAB.2 hs0 hs1, hAB.2⟩)
      have hR := ite_mono_prop (A := x1 ≤ xmax ∧ x2 ≤ xmax) (B := p.1 ≤ xmax ∧ x2 ≤ xmax)
        (fun hAB => ⟨by rw [hpx]; exact between_ub hAB.1 hAB.2 hs0 hs1, hAB.2⟩)
      have hB := ite_mono_prop (A := ymin ≤ y1 ∧ ymin ≤ y2) (B := ymin ≤ p.2 ∧ ymin ≤ y2)
        (fun hAB => ⟨by rw [hpy]; exact between_lb hAB.1 hAB.2 hs0 hs1, hAB.2⟩)
      have hTold : ¬(y1 ≤ ymax ∧ y2 ≤ ymax) := fun hcj => absurd hcj.1 (not_le.mpr hstrict)
      have hTnew : p.2 ≤ ymax ∧ y2 ≤ ymax := ⟨le_of_eq hp2, hother⟩
      unfold safe_count
      rw [if_neg hTold, if_pos hTnew]
      omega
    · intro hcc
      obtain ⟨hstrict, hother⟩ := hfacts.2 hcc
      have hL := ite_mono_prop (A := xmin ≤ x1 ∧ xmin ≤ x2) (B := xmin ≤ x1 ∧ xmin ≤ p.1)
        (fun hAB => ⟨hAB.1, by rw [hpx]; exact between_lb hAB.1 hAB.2 hs0 hs1⟩)
      have hR := ite_mono_prop (A := x1 ≤ xmax ∧ x2 ≤ xmax) (B := x1 ≤ xmax ∧ p.1 ≤ xmax)
        (fun hAB => ⟨hAB.1, by rw [hpx]; exact between_ub hAB.1 hAB.2 hs0 hs1⟩)
      have hB := ite_mono_prop (A := ymin ≤ y1 ∧ ymin ≤ y2) (B := ymin ≤ y1 ∧ ymin ≤ p.2)
        (fun hAB => ⟨hAB.1, by rw [hpy]; exact between_lb hAB.1 hAB.2 hs0 hs1⟩)
      have hTold : ¬(y1 ≤ ymax ∧ y2 ≤ ymax) := fun hcj => absurd hcj.2 (not_le.mpr hstrict)
      have hTnew : y1 ≤ ymax ∧ p.2 ≤ ymax := ⟨hother, le_of_eq hp2⟩
      unfold safe_count
      rw [if_neg hTold, if_pos hTnew]
      omega
  · by_cases hb4 : code &&& 4 ≠ 0
    · -- bottom branch
      have hfacts : (code = compute_code xmin ymin xmax ymax x1 y1 →
          y1 < ymin ∧ ymin ≤ y2) ∧
          (code ≠ compute_code xmin ymin xmax ymax x1 y1 → y2 < ymin ∧ ymin ≤ y1) := by
        rcases hsplit with ⟨hceq, hne⟩ | ⟨hceq, h1z, h2nz⟩
        · refine ⟨fun _ => ⟨?_, ?_⟩, fun hcc => absurd hceq hcc⟩
          · exact (code_bit4 xmin ymin xmax ymax x1 y1).mp (by rw [← hceq]; exact hb4)
          · have hd := disjoint_bit4 hrej (by rw [← hceq]; exact hb4)
            exact not_lt.mp (fun hc => (code_bit4 xmin ymin xmax ymax x2 y2).mpr hc hd)
        · have hne : code ≠ compute_code xmin ymin xmax ymax x1 y1 := by
            rw [hceq, h1z]
            exact h2nz
          refine ⟨fun hcc => absurd hcc hne, fun _ => ⟨?_, ?_⟩⟩
          · exact (code_bit4 xmin ymin xmax ymax x2 y2).mp (by rw [← hceq]; exact hb4)
          · exact ((compute_code_eq_zero_iff xmin ymin xmax ymax x1 y1).mp h1z).2.2.1
      have hpp : p = (x1 + (x2 - x1) * (ymin - y1) / (y2 - y1), ymin) := by
        rw [hp]
        unfold clip_intersect
        rw [if_neg hb8, if_pos hb4]
      have hdisj : (y2 ≤ ymin ∧ ymin < y1) ∨ (y1 ≤ ymin ∧ ymin < y2) ∨
          (ymin ≤ y2 ∧ y1 < ymin) ∨ (ymin ≤ y1 ∧ y2 < ymin) := by
        by_cases hcc : code = compute_code xmin ymin xmax ymax x1 y1
        · obtain ⟨a, b⟩ := hfacts.1 hcc
          exact Or.inr (Or.inr (Or.inl ⟨b, a⟩))
        · obtain ⟨a, b⟩ := hfacts.2 hcc
          exact Or.inr (Or.inr (Or.inr ⟨b, a⟩))
      obtain ⟨hden, hs0, hs1, hieq⟩ := interp_bounds (u := y1) (v := y2) (m := ymin) hdisj
      have hpx : p.1 = x1 + (ymin - y1) / (y2 - y1) * (x2 - x1) := by
        simp only [hpp]
        ring
      have hpy : p.2 = y1 + (ymin - y1) / (y2 - y1) * (y2 - y1) := by
        simp only [hpp]
        exact hieq.symm
      have hp2 : p.2 = ymin := by simp [hpp]
      refine ⟨fun _ => sub_ne_zero.mp hden, fun _ h4' => (hb4 h4').elim,
        (ymin - y1) / (y2 - y1), hs0, hs1, hpx, hpy, ?_, ?_⟩
      · intro hcc
        obtain ⟨hstrict, hother⟩ := hfacts.1 hcc
        have hL := ite_mono_prop (A := xmin ≤ x1 ∧ xmin ≤ x2) (B := xmin ≤ p.1 ∧ xmin ≤ x2)
          (fun hAB => ⟨by rw [hpx]; exact between_lb hAB.1 hAB.2 hs0 hs1, hAB.2⟩)
        have hR := ite_mono_prop (A := x1 ≤ xmax ∧ x2 ≤ xmax) (B := p.1 ≤ xmax ∧ x2 ≤ xmax)
          (fun hAB => ⟨by rw [hpx]; exact between_ub hAB.1 hAB.2 hs0 hs1, hAB.2⟩)
        have hT := ite_mono_prop (A := y1 ≤ ymax ∧ y2 ≤ ymax) (B := p.2 ≤ ymax ∧ y2 ≤ ymax)
          (fun hAB => ⟨by rw [hpy]; exact between_ub hAB.1 hAB.2 hs0 hs1, hAB.2⟩)
        have hBold : ¬(ymin ≤ y1 ∧ ymin ≤ y2) := fun hcj => absurd hcj.1 (not_le.mpr hstrict)
        have hBnew : ymin ≤ p.2 ∧ ymin ≤ y2 := ⟨le_of_eq hp2.symm, hother⟩
        unfold safe_count
        rw [if_neg hBold, if_pos hBnew]
        omega
      · intro hcc
        obtain ⟨hstrict, hother⟩ := hfacts.2 hcc
        have hL := ite_mono_prop (A := xmin ≤ x1 ∧ xmin ≤ x2) (B := xmin ≤ x1 ∧ xmin ≤ p.1)
          (fun hAB => ⟨hAB.1, by rw [hpx]; exact between_lb hAB.1 hAB.2 hs0 hs1⟩)
        have hR := ite_mono_prop (A := x1 ≤ xmax ∧ x2 ≤ xmax) (B := x1 ≤ xmax ∧ p.1 ≤ xmax)
          (fun hAB => ⟨hAB.1, by rw [hpx]; exact between_ub hAB.1 hAB.2 hs0 hs1⟩)
        have hT := ite_mono_prop (A := y1 ≤ ymax ∧ y2 ≤ ymax) (B := y1 ≤ ymax ∧ p.2 ≤ ymax)
          (fun hAB => ⟨hAB.1, by rw [hpy]; exact between_ub hAB.1 hAB.2 hs0 hs1⟩)
        have hBold : ¬(ymin ≤ y1 ∧ ymin ≤ y2) := fun hcj => absurd hcj.2 (not_le.mpr hstrict)
        have hBnew : ymin ≤ y1 ∧ ymin ≤ p.2 := ⟨hother, le_of_eq hp2.symm⟩
        unfold safe_count
        rw [if_neg hBold, if_pos hBnew]
        omega
    · by_cases hb2 : code &&& 2 ≠ 0
      · -- right branch
        have hfacts : (code = compute_code xmin ymin xmax ymax x1 y1 →
            xmax < x1 ∧ x2 ≤ xmax) ∧
            (code ≠ compute_code xmin ymin xmax ymax x1 y1 → xmax < x2 ∧ x1 ≤ xmax) := by
          rcases hsplit with ⟨hceq, hne⟩ | ⟨hceq, h1z, h2nz⟩
          · refine ⟨fun _ => ⟨?_, ?_⟩, fun hcc => absurd hceq hcc⟩
            · exact (code_bit2 xmin ymin xmax ymax x1 y1 hx).mp (by rw [← hceq]; exact hb2)
            · have hd := disjoint_bit2 hrej (by rw [← hceq]; exact hb2)
              exact not_lt.mp (fun hc => (code_bit2 xmin ymin xmax ymax x2 y2 hx).mpr hc hd)
          · have hne : code ≠ compute_code xmin ymin xmax ymax x1 y1 := by
              rw [hceq, h1z]
              exact h2nz
            refine ⟨fun hcc => absurd hcc hne, fun _ => ⟨?_, ?_⟩⟩
            · exact (code_bit2 xmin ymin xmax ymax x2 y2 hx).mp (by rw [← hceq]; exact hb2)
            · exact ((compute_code_eq_zero_iff xmin ymin xmax ymax x1 y1).mp h1z).2.1
        have hpp : p = (xmax, y1 + (y2 - y1) * (xmax - x1) / (x2 - x1)) := by
          rw [hp]
          unfold clip_intersect
          rw [if_neg hb8, if_neg hb4, if_pos hb2]
        have hdisj : (x2 ≤ xmax ∧ xmax < x1) ∨ (x1 ≤ xmax ∧ xmax < x2) ∨
            (xmax ≤ x2 ∧ x1 < xmax) ∨ (xmax ≤ x1 ∧ x2 < xmax) := by
          by_cases hcc : code = compute_code xmin ymin xmax ymax x1 y1
          · obtain ⟨a, b⟩ := hfacts.1 hcc
            exact Or.inl ⟨b, a⟩
          · obtain ⟨a, b⟩ := hfacts.2 hcc
            exact Or.inr (Or.inl ⟨b, a⟩)
        obtain ⟨hden, hs0, hs1, hieq⟩ := interp_bounds (u := x1) (v := x2) (m := xmax) hdisj
        have hpx : p.1 = x1 + (xmax - x1) / (x2 - x1) * (x2 - x1) := by
          simp only [hpp]
          exact hieq.symm
        have hpy : p.2 = y1 + (xmax - x1) / (x2 - x1) * (y2 - y1) := by
          simp only [hpp]
          ring
        have hp1 : p.1 = xmax := by simp [hpp]
        refine ⟨fun hor => (hor.elim hb8 hb4).elim, fun _ _ => sub_ne_zero.mp hden,
          (xmax - x1) / (x2 - x1), hs0, hs1, hpx, hpy, ?_, ?_⟩
        · intro hcc
          obtain ⟨hstrict, hother⟩ := hfacts.1 hcc
          have hL := ite_mono_prop (A := xmin ≤ x1 ∧ xmin ≤ x2) (B := xmin ≤ p.1 ∧ xmin ≤ x2)
            (fun hAB => ⟨by rw [hpx]; exact between_lb hAB.1 hAB.2 hs0 hs1, hAB.2⟩)
          have hB := ite_mono_prop (A := ymin ≤ y1 ∧ ymin ≤ y2) (B := ymin ≤ p.2 ∧ ymin ≤ y2)
            (fun hAB => ⟨by rw [hpy]; exact between_lb hAB.1 hAB.2 hs0 hs1, hAB.2⟩)
          have hT := ite_mono_prop (A := y1 ≤ ymax ∧ y2 ≤ ymax) (B := p.2 ≤ ymax ∧ y2 ≤ ymax)
            (fun hAB => ⟨by rw [hpy]; exact between_ub hAB.1 hAB.2 hs0 hs1, hAB.2⟩)
          have hRold : ¬(x1 ≤ xmax ∧ x2 ≤ xmax) := fun hcj => absurd hcj.1 (not_le.mpr hstrict)
          have hRnew : p.1 ≤ xmax ∧ x2 ≤ xmax := ⟨le_of_eq hp1, hother⟩
          unfold safe_count
          rw [if_neg hRold, if_pos hRnew]
          omega
        · intro hcc
          obtain ⟨hstrict, hother⟩ := hfacts.2 hcc
          have hL := ite_mono_prop (A := xmin ≤ x1 ∧ xmin ≤ x2) (B := xmin ≤ x1 ∧ xmin ≤ p.1)
            (fun hAB => ⟨hAB.1, by rw [hpx]; exact between_lb hAB.1 hAB.2 hs0 hs1⟩)
          have hB := ite_mono_prop (A := ymin ≤ y1 ∧ ymin ≤ y2) (B := ymin ≤ y1 ∧ ymin ≤ p.2)
            (fun hAB => ⟨hAB.1, by rw [hpy]; exact between_lb hAB.1 hAB.2 hs0 hs1⟩)
          have hT := ite_mono_prop (A := y1 ≤ ymax ∧ y2 ≤ ymax) (B := y1 ≤ ymax ∧ p.2 ≤ ymax)
            (fun hAB => ⟨hAB.1, by rw [hpy]; exact between_ub hAB.1 hAB.2 hs0 hs1⟩)
          have hRold : ¬(x1 ≤ xmax ∧ x2 ≤ xmax) := fun hcj => absurd hcj.2 (not_le.mpr hstrict)
          have hRnew : x1 ≤ xmax ∧ p.1 ≤ xmax := ⟨hother, le_of_eq hp1⟩
          unfold safe_count
          rw [if_neg hRold, if_pos hRnew]
          omega
      · -- left branch
        have hb8' : code &&& 8 = 0 := not_not.mp hb8
        have hb4' : code &&& 4 = 0 := not_not.mp hb4
        have hb2' : code &&& 2 = 0 := not_not.mp hb2
        have hfacts : (code = compute_code xmin ymin xmax ymax x1 y1 →
            x1 < xmin ∧ xmin ≤ x2) ∧
            (code ≠ compute_code xmin ymin xmax ymax x1 y1 → x2 < xmin ∧ xmin ≤ x1) := by
          rcases hsplit with ⟨hceq, hne⟩ | ⟨hceq, h1z, h2nz⟩
          · have hstrict : x1 < xmin := code_left_of xmin ymin xmax ymax x1 y1 hx hy
              hne (by rw [← hceq]; exact hb8')
              (by rw [← hceq]; exact hb4') (by rw [← hceq]; exact hb2')
            refine ⟨fun _ => ⟨hstrict, ?_⟩, fun hcc => absurd hceq hcc⟩
            have hbit1 : compute_code xmin ymin xmax ymax x1 y1 &&& 1 ≠ 0 :=
              (code_bit1 xmin ymin xmax ymax x1 y1).mpr hstrict
            have hd := disjoint_bit1 hrej hbit1
            exact not_lt.mp (fun hc => (code_bit1 xmin ymin xmax ymax x2 y2).mpr hc hd)
          · have hne : code ≠ compute_code xmin ymin xmax ymax x1 y1 := by
              rw [hceq, h1z]
              exact h2nz
            have hstrict : x2 < xmin := code_left_of xmin ymin xmax ymax x2 y2 hx hy
              h2nz (by rw [← hceq]; exact hb8')
              (by rw [← hceq]; exact hb4') (by rw [← hceq]; exact hb2')
            refine ⟨fun hcc => absurd hcc hne, fun _ => ⟨hstrict, ?_⟩⟩
            exact ((compute_code_eq_zero_iff xmin ymin xmax ymax x1 y1).mp h1z).1
        have hpp : p = (xmin, y1 + (y2 - y1) * (xmin - x1) / (x2 - x1)) := by
          rw [hp]
          unfold clip_intersect
          rw [if_neg hb8, if_neg hb4, if_neg hb2]
        have hdisj : (x2 ≤ xmin ∧ xmin < x1) ∨ (x1 ≤ xmin ∧ xmin < x2) ∨
            (xmin ≤ x2 ∧ x1 < xmin) ∨ (xmin ≤ x1 ∧ x2 < xmin) := by
          by_cases hcc : code = compute_code xmin ymin xmax ymax x1 y1
          · obtain ⟨a, b⟩ := hfacts.1 hcc
            exact Or.inr (Or.inr (Or.inl ⟨b, a⟩))
          · obtain ⟨a, b⟩ := hfacts.2 hcc
            exact Or.inr (Or.inr (Or.inr ⟨b, a⟩))
        obtain ⟨hden, hs0, hs1, hieq⟩ := interp_bounds (u := x1) (v := x2) (m := xmin) hdisj
        have hpx : p.1 = x1 + (xmin - x1) / (x2 - x1) * (x2 - x1) := by
          simp only [hpp]
          exact hieq.symm
        have hpy : p.2 = y1 + (xmin - x1) / (x2 - x1) * (y2 - y1) := by
          simp only [hpp]
          ring
        have hp1 : p.1 = xmin := by simp [hpp]
        refine ⟨fun hor => (hor.elim hb8 hb4).elim, fun _ _ => sub_ne_zero.mp hden,
          (xmin - x1) / (x2 - x1), hs0, hs1, hpx, hpy, ?_, ?_⟩
        · intro hcc
          obtain ⟨hstrict, hother⟩ := hfacts.1 hcc
          have hR := ite_mono_prop (A := x1 ≤ xmax ∧ x2 ≤ xmax) (B := p.1 ≤ xmax ∧ x2 ≤ xmax)
            (fun hAB => ⟨by rw [hpx]; exact between_ub hAB.1 hAB.2 hs0 hs1, hAB.2⟩)
          have hB := ite_mono_prop (A := ymin ≤ y1 ∧ ymin ≤ y2) (B := ymin ≤ p.2 ∧ ymin ≤ y2)
            (fun hAB => ⟨by rw [hpy]; exact between_lb hAB.1 hAB.2 hs0 hs1, hAB.2⟩)
          have hT := ite_mono_prop (A := y1 ≤ ymax ∧ y2 ≤ ymax) (B := p.2 ≤ ymax ∧ y2 ≤ ymax)
            (fun hAB => ⟨by rw [hpy]; exact between_ub hAB.1 hAB.2 hs0 hs1, hAB.2⟩)
          have hLold : ¬(xmin ≤ x1 ∧ xmin ≤ x2) := fun hcj => absurd hcj.1 (not_le.mpr hstrict)
          have hLnew : xmin ≤ p.1 ∧ xmin ≤ x2 := ⟨le_of_eq hp1.symm, hother⟩
          unfold safe_count
          rw [if_neg hLold, if_pos hLnew]
          omega
        · intro hcc
          obtain ⟨hstrict, hother⟩ := hfacts.2 hcc
          have hR := ite_mono_prop (A := x1 ≤ xmax ∧ x2 ≤ xmax) (B := x1 ≤ xmax ∧ p.1 ≤ xmax)
            (fun hAB => ⟨hAB.1, by rw [hpx]; exact between_ub hAB.1 hAB.2 hs0 hs1⟩)
          have hB := ite_mono_prop (A := ymin ≤ y1 ∧ ymin ≤ y2) (B := ymin ≤ y1 ∧ ymin ≤ p.2)
            (fun hAB => ⟨hAB.1, by rw [hpy]; exact between_lb hAB.1 hAB.2 hs0 hs1⟩)
          have hT := ite_mono_prop (A := y1 ≤ ymax ∧ y2 ≤ ymax) (B := y1 ≤ ymax ∧ p.2 ≤ ymax)
            (fun hAB => ⟨hAB.1, by rw [hpy]; exact between_ub hAB.1 hAB.2 hs0 hs1⟩)
          have hLold : ¬(xmin ≤ x1 ∧ xmin ≤ x2) := fun hcj => absurd hcj.2 (not_le.mpr hstrict)
          have hLnew : xmin ≤ x1 ∧ xmin ≤ p.1 := ⟨hother, le_of_eq hp1.symm⟩
          unfold safe_count
          rw [if_neg hLold, if_pos hLnew]
          omega

/-! ## The clipping loop: termination and correctness -/

/-- One loop iteration in the accepting case. -/
lemma clipLoop_succ_accept (xmin ymin xmax ymax x1 y1 x2 y2 : ℝ) (fuel : ℕ)
    (hacc : compute_code xmin ymin xmax ymax x1 y1 = 0 ∧
      compute_code xmin ymin xmax ymax x2 y2 = 0) :
    clipLoop xmin ymin xmax ymax (fuel + 1) x1 y1 x2 y2 =
      some (some (⟨x1, y1⟩, ⟨x2, y2⟩)) := by
  simp only [clipLoop]
  rw [if_pos hacc]

/-- One loop iteration in the rejecting case. -/
lemma clipLoop_succ_reject (xmin ymin xmax ymax x1 y1 x2 y2 : ℝ) (fuel : ℕ)
    (hrej : compute_code xmin ymin xmax ymax x1 y1 &&&
      compute_code xmin ymin xmax ymax x2 y2 ≠ 0) :
    clipLoop xmin ymin xmax ymax (fuel + 1) x1 y1 x2 y2 = some none := by
  have hnacc : ¬(compute_code xmin ymin xmax ymax x1 y1 = 0 ∧
      compute_code xmin ymin xmax ymax x2 y2 = 0) :=
    fun hc => hrej (by rw [hc.1, hc.2]; rfl)
  simp only [clipLoop]
  rw [if_neg hnacc, if_pos hrej]

/-- One loop iteration in the clipping case. -/
lemma clipLoop_succ_clip (xmin ymin xmax ymax x1 y1 x2 y2 : ℝ) (fuel : ℕ)
    (hnacc : ¬(compute_code xmin ymin xmax ymax x1 y1 = 0 ∧
      compute_code xmin ymin xmax ymax x2 y2 = 0))
    (hrej : compute_code xmin ymin xmax ymax x1 y1 &&&
      compute_code xmin ymin xmax ymax x2 y2 = 0) :
    clipLoop xmin ymin xmax ymax (fuel + 1) x1 y1 x2 y2 =
      if chosen_code xmin ymin xmax ymax x1 y1 x2 y2 =
          compute_code xmin ymin xmax ymax x1 y1 then
        clipLoop xmin ymin xmax ymax fuel
          (clip_intersect xmin ymin xmax ymax x1 y1 x2 y2
            (chosen_code xmin ymin xmax ymax x1 y1 x2 y2)).1
          (clip_intersect xmin ymin xmax ymax x1 y1 x2 y2
            (chosen_code xmin ymin xmax ymax x1 y1 x2 y2)).2 x2 y2
      else
        clipLoop xmin ymin xmax ymax fuel x1 y1
          (clip_intersect xmin ymin xmax ymax x1 y1 x2 y2
            (chosen_code xmin ymin xmax ymax x1 y1 x2 y2)).1
          (clip_intersect xmin ymin xmax ymax x1 y1 x2 y2
            (chosen_code xmin ymin xmax ymax x1 y1 x2 y2)).2 := by
  simp only [clipLoop]
  rw [if_neg hnacc, if_neg (not_not_intro hrej)]
  rfl

/-- Fuel `n + 1` suffices whenever at most `n` half-planes remain unsafe;
since there are only four half-planes, fuel 5 always suffices. -/
lemma clipLoop_terminates (xmin ymin xmax ymax : ℝ) (hx : xmin ≤ xmax) (hy : ymin ≤ ymax) :
    ∀ (n : ℕ) (x1 y1 x2 y2 : ℝ),
      4 - safe_count xmin ymin xmax ymax x1 y1 x2 y2 ≤ n →
      ∃ r, clipLoop xmin ymin xmax ymax (n + 1) x1 y1 x2 y2 = some r := by
  intro n
  induction n with
  | zero =>
    intro x1 y1 x2 y2 h
    have b1 : (if xmin ≤ x1 ∧ xmin ≤ x2 then (1 : ℕ) else 0) ≤ 1 := indicator_le_one
    have b2 : (if x1 ≤ xmax ∧ x2 ≤ xmax then (1 : ℕ) else 0) ≤ 1 := indicator_le_one
    have b3 : (if ymin ≤ y1 ∧ ymin ≤ y2 then (1 : ℕ) else 0) ≤ 1 := indicator_le_one
    have b4 : (if y1 ≤ ymax ∧ y2 ≤ ymax then (1 : ℕ) else 0) ≤ 1 := indicator_le_one
    have hA : xmin ≤ x1 ∧ xmin ≤ x2 := by
      by_contra hc
      unfold safe_count at h
      rw [if_neg hc] at h
      omega
    have hB : x1 ≤ xmax ∧ x2 ≤ xmax := by
      by_contra hc
      unfold safe_count at h
      rw [if_neg hc] at h
      omega
    have hC : ymin ≤ y1 ∧ ymin ≤ y2 := by
      by_contra hc
      unfold safe_count at h
      rw [if_neg hc] at h
      omega
    have hD : y1 ≤ ymax ∧ y2 ≤ ymax := by
      by_contra hc
      unfold safe_count at h
      rw [if_neg hc] at h
      omega
    exact ⟨_, clipLoop_succ_accept xmin ymin xmax ymax x1 y1 x2 y2 0
      ⟨(compute_code_eq_zero_iff xmin ymin xmax ymax x1 y1).mpr ⟨hA.1, hB.1, hC.1, hD.1⟩,
       (compute_code_eq_zero_iff xmin ymin xmax ymax x2 y2).mpr ⟨hA.2, hB.2, hC.2, hD.2⟩⟩⟩
  | succ m ih =>
    intro x1 y1 x2 y2 h
    by_cases hacc : compute_code xmin ymin xmax ymax x1 y1 = 0 ∧
        compute_code xmin ymin xmax ymax x2 y2 = 0
    · exact ⟨_, clipLoop_succ_accept xmin ymin xmax ymax x1 y1 x2 y2 (m + 1) hacc⟩
    by_cases hrejn : compute_code xmin ymin xmax ymax x1 y1 &&&
        compute_code xmin ymin xmax ymax x2 y2 ≠ 0
    · exact ⟨_, clipLoop_succ_reject xmin ymin xmax ymax x1 y1 x2 y2 (m + 1) hrejn⟩
    have hrej := not_not.mp hrejn
    obtain ⟨-, -, s, hs0, hs1, hpx, hpy, hinc1, hinc2⟩ :=
      clip_step_analysis xmin ymin xmax ymax hx hy x1 y1 x2 y2
        (chosen_code xmin ymin xmax ymax x1 y1 x2 y2)
        (clip_intersect xmin ymin xmax ymax x1 y1 x2 y2
          (chosen_code xmin ymin xmax ymax x1 y1 x2 y2)) hacc hrej rfl rfl
    rw [clipLoop_succ_clip xmin ymin xmax ymax x1 y1 x2 y2 (m + 1) hacc hrej]
    by_cases htest : chosen_code xmin ymin xmax ymax x1 y1 x2 y2 =
        compute_code xmin ymin xmax ymax x1 y1
    · rw [if_pos htest]
      refine ih _ _ _ _ ?_
      have := hinc1 htest
      omega
    · rw [if_neg htest]
      refine ih _ _ _ _ ?_
      have := hinc2 htest
      omega

/-- If the whole segment misses the closed clip rectangle, the loop can only
reject (never accept): every intermediate segment stays inside the original
one. -/
lemma clipLoop_miss (xmin ymin xmax ymax : ℝ) (hx : xmin ≤ xmax) (hy : ymin ≤ ymax) :
    ∀ (fuel : ℕ) (x1 y1 x2 y2 : ℝ),
      (∀ t : ℝ, 0 ≤ t → t ≤ 1 →
        ¬(xmin ≤ x1 + t * (x2 - x1) ∧ x1 + t * (x2 - x1) ≤ xmax ∧
          ymin ≤ y1 + t * (y2 - y1) ∧ y1 + t * (y2 - y1) ≤ ymax)) →
      ∀ r, clipLoop xmin ymin xmax ymax fuel x1 y1 x2 y2 = some r → r = none := by
  intro fuel
  induction fuel with
  | zero =>
    intro x1 y1 x2 y2 hmiss r hr
    simp [clipLoop] at hr
  | succ m ih =>
    intro x1 y1 x2 y2 hmiss r hr
    by_cases hacc : compute_code xmin ymin xmax ymax x1 y1 = 0 ∧
        compute_code xmin ymin xmax ymax x2 y2 = 0
    · exfalso
      obtain ⟨a, b, c, d⟩ := (compute_code_eq_zero_iff xmin ymin xmax ymax x1 y1).mp hacc.1
      exact hmiss 0 le_rfl zero_le_one
        ⟨by simpa using a, by simpa using b, by simpa using c, by simpa using d⟩
    by_cases hrejn : compute_code xmin ymin xmax ymax x1 y1 &&&
        compute_code xmin ymin xmax ymax x2 y2 ≠ 0
    · rw [clipLoop_succ_reject xmin ymin xmax ymax x1 y1 x2 y2 m hrejn] at hr
      exact (Option.some.inj hr).symm
    have hrej := not_not.mp hrejn
    obtain ⟨-, -, s, hs0, hs1, hpx, hpy, -, -⟩ :=
      clip_step_analysis xmin ymin xmax ymax hx hy x1 y1 x2 y2
        (chosen_code xmin ymin xmax ymax x1 y1 x2 y2)
        (clip_intersect xmin ymin xmax ymax x1 y1 x2 y2
          (chosen_code xmin ymin xmax ymax x1 y1 x2 y2)) hacc hrej rfl rfl
    rw [clipLoop_succ_clip xmin ymin xmax ymax x1 y1 x2 y2 m hacc hrej] at hr
    by_cases htest : chosen_code xmin ymin xmax ymax x1 y1 x2 y2 =
        compute_code xmin ymin xmax ymax x1 y1
    · rw [if_pos htest] at hr
      refine ih _ _ _ _ ?_ r hr
      intro t ht0 ht1
      have hu0 : 0 ≤ s + t * (1 - s) := by nlinarith
      have hu1 : s + t * (1 - s) ≤ 1 := by nlinarith
      have e1 : (clip_intersect xmin ymin xmax ymax x1 y1 x2 y2
          (chosen_code xmin ymin xmax ymax x1 y1 x2 y2)).1 +
          t * (x2 - (clip_intersect xmin ymin xmax ymax x1 y1 x2 y2
            (chosen_code xmin ymin xmax ymax x1 y1 x2 y2)).1) =
          x1 + (s + t * (1 - s)) * (x2 - x1) := by
        rw [hpx]
        ring
      have e2 : (clip_intersect xmin ymin xmax ymax x1 y1 x2 y2
          (chosen_code xmin ymin xmax ymax x1 y1 x2 y2)).2 +
          t * (y2 - (clip_intersect xmin ymin xmax ymax x1 y1 x2 y2
            (chosen_code xmin ymin xmax ymax x1 y1 x2 y2)).2) =
          y1 + (s + t * (1 - s)) * (y2 - y1) := by
        rw [hpy]
        ring
      rw [e1, e2]
      exact hmiss _ hu0 hu1
    · rw [if_neg htest] at hr
      refine ih _ _ _ _ ?_ r hr
      intro t ht0 ht1
      have hu0 : 0 ≤ t * s := mul_nonneg ht0 hs0
      have hu1 : t * s ≤ 1 := by nlinarith
      have e1 : x1 + t * ((clip_intersect xmin ymin xmax ymax x1 y1 x2 y2
          (chosen_code xmin ymin xmax ymax x1 y1 x2 y2)).1 - x1) =
          x1 + (t * s) * (x2 - x1) := by
        rw [hpx]
        ring
      have e2 : y1 + t * ((clip_intersect xmin ymin xmax ymax x1 y1 x2 y2
          (chosen_code xmin ymin xmax ymax x1 y1 x2 y2)).2 - y1) =
          y1 + (t * s) * (y2 - y1) := by
        rw [hpy]
        ring
      rw [e1, e2]
      exact hmiss _ hu0 hu1

/-- The expanded-viewport margin is nonnegative. -/
lemma margin_nonneg (W H : ℕ) : (0 : ℝ) ≤ max (W : ℝ) (H : ℝ) * 0.5 :=
  mul_nonneg (le_max_of_le_left (Nat.cast_nonneg W)) (by norm_num)

/-- **C9**: the Cohen–Sutherland loop of `_clip_line_to_viewport` terminates
for every pair of finite endpoints — fuel 5 always reaches accept or reject —
and whenever an intersection is computed the divisor (`y2 - y1` for the
top/bottom branches, `x2 - x1` for the right/left branches) is nonzero. -/
theorem clip_loop_terminates_divisors :
    (∀ (W H : ℕ) (x1 y1 x2 y2 : ℝ), ∃ r,
      clipLoop (-(max (W : ℝ) (H : ℝ) * 0.5)) (-(max (W : ℝ) (H : ℝ) * 0.5))
        ((W : ℝ) + max (W : ℝ) (H : ℝ) * 0.5) ((H : ℝ) + max (W : ℝ) (H : ℝ) * 0.5)
        5 x1 y1 x2 y2 = some r) ∧
    (∀ xmin ymin xmax ymax x1 y1 x2 y2 : ℝ, xmin ≤ xmax → ymin ≤ ymax →
      in_clip_case xmin ymin xmax ymax x1 y1 x2 y2 →
      ((chosen_code xmin ymin xmax ymax x1 y1 x2 y2 &&& 8 ≠ 0 ∨
        chosen_code xmin ymin xmax ymax x1 y1 x2 y2 &&& 4 ≠ 0) → y2 - y1 ≠ 0) ∧
      (chosen_code xmin ymin xmax ymax x1 y1 x2 y2 &&& 8 = 0 →
        chosen_code xmin ymin xmax ymax x1 y1 x2 y2 &&& 4 = 0 → x2 - x1 ≠ 0)) := by
  constructor
  · intro W H x1 y1 x2 y2
    have hm := margin_nonneg W H
    have hW : (0 : ℝ) ≤ (W : ℝ) := Nat.cast_nonneg W
    have hH : (0 : ℝ) ≤ (H : ℝ) := Nat.cast_nonneg H
    exact clipLoop_terminates _ _ _ _ (by linarith) (by linarith) 4 x1 y1 x2 y2 (by omega)
  · intro xmin ymin xmax ymax x1 y1 x2 y2 hx hy hcase
    obtain ⟨hdy, hdx, -⟩ := clip_step_analysis xmin ymin xmax ymax hx hy x1 y1 x2 y2
      (chosen_code xmin ymin xmax ymax x1 y1 x2 y2)
      (clip_intersect xmin ymin xmax ymax x1 y1 x2 y2
        (chosen_code xmin ymin xmax ymax x1 y1 x2 y2)) hcase.1 hcase.2 rfl rfl
    exact ⟨fun hor => sub_ne_zero.mpr (hdy hor), fun h8 h4 => sub_ne_zero.mpr (hdx h8 h4)⟩

/-- **C9 witness**: a concrete run terminates, and a concrete clip-case state
(left endpoint outside, right endpoint inside a 10×10 box) has a nonzero
x-divisor. -/
theorem clip_loop_terminates_divisors_witness :
    (∃ r, clipLoop (-(max (100 : ℝ) (100 : ℝ) * 0.5)) (-(max (100 : ℝ) (100 : ℝ) * 0.5))
      ((100 : ℝ) + max (100 : ℝ) (100 : ℝ) * 0.5) ((100 : ℝ) + max (100 : ℝ) (100 : ℝ) * 0.5)
      5 0 0 10 10 = some r) ∧
    ((5 : ℝ) - -5 ≠ 0) := by
  have hc1 : compute_code 0 0 10 10 (-5) 5 = 1 := by
    unfold compute_code
    norm_num
  have hc2 : compute_code 0 0 10 10 5 5 = 0 := by
    unfold compute_code
    norm_num
  have hchosen : chosen_code 0 0 10 10 (-5) 5 5 5 = 1 := by
    unfold chosen_code
    rw [hc1, hc2]
    norm_num
  have hcase : in_clip_case 0 0 10 10 (-5) 5 5 5 := by
    constructor
    · rw [hc1, hc2]
      omega
    · rw [hc1, hc2]
      decide
  constructor
  · have := clip_loop_terminates_divisors.1 100 100 0 0 10 10
    simpa using this
  · refine (clip_loop_terminates_divisors.2 0 0 10 10 (-5) 5 5 5 (by norm_num) (by norm_num)
      hcase).2 ?_ ?_
    · rw [hchosen]
      decide
    · rw [hchosen]
      decide

/-- **C8**: against the viewport expanded by the margin `0.5 * max(W, H)`, a
segment with both endpoints inside the expanded rectangle is returned
unchanged by `_clip_line_to_viewport`, and a segment without any point inside
the expanded rectangle is dropped (`None`). -/
theorem clip_inside_unchanged_outside_dropped (p q : Point2D) (W H : ℕ) :
    (in_expanded_viewport W H p → in_expanded_viewport W H q →
      clip_line_to_viewport p q W H = some (p, q)) ∧
    ((∀ t : ℝ, 0 ≤ t → t ≤ 1 →
        ¬ in_expanded_viewport W H ⟨p.x + t * (q.x - p.x), p.y + t * (q.y - p.y)⟩) →
      clip_line_to_viewport p q W H = none) := by
  have hm := margin_nonneg W H
  have hW : (0 : ℝ) ≤ (W : ℝ) := Nat.cast_nonneg W
  have hH : (0 : ℝ) ≤ (H : ℝ) := Nat.cast_nonneg H
  have hx : -(max (W : ℝ) (H : ℝ) * 0.5) ≤ (W : ℝ) + max (W : ℝ) (H : ℝ) * 0.5 := by linarith
  have hy : -(max (W : ℝ) (H : ℝ) * 0.5) ≤ (H : ℝ) + max (W : ℝ) (H : ℝ) * 0.5 := by linarith
  constructor
  · intro hp hq
    unfold in_expanded_viewport at hp hq
    have h1 : compute_code (-(max (W : ℝ) (H : ℝ) * 0.5)) (-(max (W : ℝ) (H : ℝ) * 0.5))
        ((W : ℝ) + max (W : ℝ) (H : ℝ) * 0.5) ((H : ℝ) + max (W : ℝ) (H : ℝ) * 0.5)
        p.x p.y = 0 :=
      (compute_code_eq_zero_iff _ _ _ _ p.x p.y).mpr ⟨hp.1, hp.2.1, hp.2.2.1, hp.2.2.2⟩
    have h2 : compute_code (-(max (W : ℝ) (H : ℝ) * 0.5)) (-(max (W : ℝ) (H : ℝ) * 0.5))
        ((W : ℝ) + max (W : ℝ) (H : ℝ) * 0.5) ((H : ℝ) + max (W : ℝ) (H : ℝ) * 0.5)
        q.x q.y = 0 :=
      (compute_code_eq_zero_iff _ _ _ _ q.x q.y).mpr ⟨hq.1, hq.2.1, hq.2.2.1, hq.2.2.2⟩
    simp only [clip_line_to_viewport]
    rw [show (5 : ℕ) = 4 + 1 from rfl,
      clipLoop_succ_accept _ _ _ _ p.x p.y q.x q.y 4 ⟨h1, h2⟩]
    rfl
  · intro hmiss
    obtain ⟨r, hr⟩ := clipLoop_terminates _ _ _ _ hx hy 4 p.x p.y q.x q.y (by omega)
    have hnone : r = none := by
      refine clipLoop_miss _ _ _ _ hx hy (4 + 1) p.x p.y q.x q.y ?_ r hr
      intro t ht0 ht1
      have := hmiss t ht0 ht1
      unfold in_expanded_viewport at this
      exact this
    simp only [clip_line_to_viewport]
    rw [show (5 : ℕ) = 4 + 1 from rfl, hr, hnone]
    rfl

/-- **C8 witness**: a concrete fully-inside segment is returned unchanged, and
a concrete fully-outside segment is dropped, for a 100×100 screen. -/
theorem clip_inside_unchanged_outside_dropped_witness :
    (in_expanded_viewport 100 100 ⟨0, 0⟩ ∧ in_expanded_viewport 100 100 ⟨10, 10⟩ ∧
      clip_line_to_viewport ⟨0, 0⟩ ⟨10, 10⟩ 100 100 = some (⟨0, 0⟩, ⟨10, 10⟩)) ∧
    clip_line_to_viewport ⟨-200, 0⟩ ⟨-100, 0⟩ 100 100 = none := by
  have hin1 : in_expanded_viewport 100 100 ⟨0, 0⟩ := by
    unfold in_expanded_viewport
    norm_num
  have hin2 : in_expanded_viewport 100 100 ⟨10, 10⟩ := by
    unfold in_expanded_viewport
    norm_num
  refine ⟨⟨hin1, hin2,
    (clip_inside_unchanged_outside_dropped ⟨0, 0⟩ ⟨10, 10⟩ 100 100).1 hin1 hin2⟩, ?_⟩
  refine (clip_inside_unchanged_outside_dropped ⟨-200, 0⟩ ⟨-100, 0⟩ 100 100).2 ?_
  intro t ht0 ht1 h
  have h1 := h.1
  norm_num [in_expanded_viewport] at h1
  linarith

/-! ## Grid spacing and density monotonicity -/

/-- The clamped spacing is antitone in the density (for positive densities). -/
lemma spacing_antitone (c1 c2 : GridConfig) (e : ℝ) (he : 0 < e) (hd1 : 0 < c1.density)
    (hd : c1.density ≤ c2.density) :
    calculate_grid_spacing c2 e ≤ calculate_grid_spacing c1 e := by
  unfold calculate_grid_spacing
  rw [if_neg (not_le.mpr he), if_neg (not_le.mpr he)]
  have hdiv : e * 0.1 / c2.density ≤ e * 0.1 / c1.density := by
    gcongr
  exact max_le_max le_rfl (min_le_min hdiv le_rfl)

/-- The clamped spacing always lies between 2% and 50% of a positive extent. -/
lemma spacing_bounds (c : GridConfig) (e : ℝ) (he : 0 < e) :
    e * 0.02 ≤ calculate_grid_spacing c e ∧ calculate_grid_spacing c e ≤ e * 0.5 := by
  unfold calculate_grid_spacing
  rw [if_neg (not_le.mpr he)]
  exact ⟨le_max_left _ _, max_le (by nlinarith) (min_le_right _ _)⟩

/-- Dropping the density from 1 to 0.2 either leaves the spacing unchanged
(non-positive extent) or multiplies it by exactly 5. -/
lemma spacing_rel (c : GridConfig) (e : ℝ) (hd : c.density = 1) :
    calculate_grid_spacing { c with density := 0.2 } e = calculate_grid_spacing c e ∨
    (0 < calculate_grid_spacing c e ∧
      calculate_grid_spacing { c with density := 0.2 } e =
        5 * calculate_grid_spacing c e) := by
  unfold calculate_grid_spacing
  by_cases he : e ≤ 0
  · rw [if_pos he, if_pos he]
    exact Or.inl rfl
  · rw [if_neg he, if_neg he]
    push_neg at he
    right
    have hdens : ({ c with density := 0.2 } : GridConfig).density = 0.2 := rfl
    rw [hdens, hd]
    have h1 : min (e * 0.1 / 1) (e * 0.5) = e * 0.1 := by
      rw [show e * 0.1 / 1 = e * 0.1 by ring]
      exact min_eq_left (by nlinarith)
    have h2 : max (e * 0.02) (e * 0.1) = e * 0.1 := max_eq_right (by nlinarith)
    have h3 : min (e * 0.1 / 0.2) (e * 0.5) = e * 0.5 := by
      rw [show e * 0.1 / 0.2 = e * 0.5 by ring]
      exact min_self _
    have h4 : max (e * 0.02) (e * 0.5) = e * 0.5 := max_eq_right (by nlinarith)
    rw [h1, h2, h3, h4]
    exact ⟨by nlinarith, by ring⟩

/-- `takeWhile` of a `range'` is an initial `range'` of the same start, with
the kept indices satisfying the predicate and the first dropped one (if any)
failing it. -/
lemma takeWhile_range'_eq (q : ℕ → Bool) :
    ∀ (n a : ℕ), ∃ k, k ≤ n ∧ (List.range' a n).takeWhile q = List.range' a k ∧
      (∀ i, a ≤ i → i < a + k → q i = true) ∧ (k < n → q (a + k) = false) := by
  intro n
  induction n with
  | zero =>
    intro a
    exact ⟨0, le_rfl, rfl, fun i h1 h2 => by omega, fun h => by omega⟩
  | succ m ih =>
    intro a
    rw [List.range'_succ, List.takeWhile_cons]
    by_cases hqa : q a = true
    · rw [if_pos hqa]
      obtain ⟨k, hk, heq, hall, hstop⟩ := ih (a + 1)
      refine ⟨k + 1, by omega, ?_, ?_, ?_⟩
      · rw [heq, List.range'_succ]
      · intro i h1 h2
        rcases eq_or_lt_of_le h1 with rfl | hlt
        · exact hqa
        · exact hall i (by omega) (by omega)
      · intro hlt
        rw [show a + (k + 1) = a + 1 + k by omega]
        exact hstop (by omega)
    · rw [if_neg hqa]
      refine ⟨0, by omega, rfl, fun i h1 h2 => by omega, fun _ => ?_⟩
      rw [Nat.add_zero]
      simpa using hqa

/-- The multiples `5, 10, …, 5k` form a sublist of `1, 2, …, m` when `5k ≤ m`. -/
lemma map_mul_range'_sublist : ∀ (k m : ℕ), 5 * k ≤ m →
    List.Sublist ((List.range' 1 k).map (fun j => 5 * j)) (List.range' 1 m) := by
  intro k
  induction k with
  | zero =>
    intro m _
    simp
  | succ n ih =>
    intro m h
    rw [List.range'_concat, List.map_append]
    have hsplit : List.range' 1 m = List.range' 1 (5 * n) ++
        List.range' (1 + 1 * (5 * n)) (m - 5 * n) := by
      rw [List.range'_append 1 (5 * n) (m - 5 * n) 1,
        show m - 5 * n + 5 * n = m by omega]
    rw [hsplit]
    apply List.Sublist.append
    · exact ih (5 * n) le_rfl
    · simp only [List.map_cons, List.map_nil]
      apply List.singleton_sublist.mpr
      apply List.mem_range'_1.mpr
      constructor <;> omega

/-- The interior-line loop at spacing `5s` produces a sublist of the loop at
spacing `s`: every coarse grid position `j*(5s)` is the fine position with
index `5j`. -/
lemma loop_sublist (g : ℝ → GridLine) (a0 alim s : ℝ) (hs : 0 < s) :
    List.Sublist
      (((List.range' 1 (Int.toNat ⌊|alim - a0| / (5 * s)⌋)).takeWhile
        (fun i : ℕ => decide (a0 + (i : ℝ) * (5 * s) < alim))).map
        (fun i : ℕ => g (a0 + (i : ℝ) * (5 * s))))
      (((List.range' 1 (Int.toNat ⌊|alim - a0| / s⌋)).takeWhile
        (fun i : ℕ => decide (a0 + (i : ℝ) * s < alim))).map
        (fun i : ℕ => g (a0 + (i : ℝ) * s))) := by
  obtain ⟨k5, hk5n, he5, hall5, hstop5⟩ :=
    takeWhile_range'_eq (fun i : ℕ => decide (a0 + (i : ℝ) * (5 * s) < alim))
      (Int.toNat ⌊|alim - a0| / (5 * s)⌋) 1
  obtain ⟨k1, hk1n, he1, hall1, hstop1⟩ :=
    takeWhile_range'_eq (fun i : ℕ => decide (a0 + (i : ℝ) * s < alim))
      (Int.toNat ⌊|alim - a0| / s⌋) 1
  rw [he1, he5]
  have hcomp : (List.range' 1 k5).map (fun i : ℕ => g (a0 + (i : ℝ) * (5 * s))) =
      ((List.range' 1 k5).map (fun j : ℕ => 5 * j)).map
        (fun i : ℕ => g (a0 + (i : ℝ) * s)) := by
    rw [List.map_map]
    apply List.map_congr_left
    intro i _
    show g (a0 + (i : ℝ) * (5 * s)) = g (a0 + ((5 * i : ℕ) : ℝ) * s)
    congr 1
    push_cast
    ring
  rw [hcomp]
  apply List.Sublist.map
  apply map_mul_range'_sublist
  rcases Nat.eq_zero_or_pos k5 with hz | hpos
  · omega
  · have hq5 : a0 + (k5 : ℝ) * (5 * s) < alim :=
      of_decide_eq_true (hall5 k5 (by omega) (by omega))
    have hk5r : (0 : ℝ) < (k5 : ℝ) := by exact_mod_cast hpos
    have halim : a0 < alim := by nlinarith
    have habs : |alim - a0| = alim - a0 := abs_of_pos (by linarith)
    have h5k : ((5 * k5 : ℕ) : ℝ) * s < alim - a0 := by
      push_cast
      nlinarith
    have hfl : ((5 * k5 : ℕ) : ℤ) ≤ ⌊|alim - a0| / s⌋ := by
      rw [habs]
      apply Int.le_floor.mpr
      rw [le_div_iff hs]
      push_cast
      push_cast at h5k
      linarith
    have hn1 : 5 * k5 ≤ Int.toNat ⌊|alim - a0| / s⌋ := by omega
    by_contra hlt
    push_neg at hlt
    have htrue : a0 + ((1 + k1 : ℕ) : ℝ) * s < alim := by
      have hle : ((1 + k1 : ℕ) : ℝ) ≤ ((5 * k5 : ℕ) : ℝ) := by
        exact_mod_cast (by omega : 1 + k1 ≤ 5 * k5)
      nlinarith [mul_le_mul_of_nonneg_right hle (le_of_lt hs), h5k]
    have hfalse : decide (a0 + ((1 + k1 : ℕ) : ℝ) * s < alim) = false := hstop1 (by omega)
    rw [decide_eq_true htrue] at hfalse
    exact absurd hfalse (by decide)

/-- Dropping the density from 1 to 0.2 turns a floor panel's interior lines
into a sublist. -/
lemma floor_grid_sublist (c : GridConfig) (panel : Panel) (view proj : Matrix4x4)
    (W H : ℕ) (hd : c.density = 1) :
    List.Sublist (generate_floor_grid { c with density := 0.2 } panel view proj W H)
      (generate_floor_grid c panel view proj W H) := by
  simp only [generate_floor_grid]
  rcases spacing_rel c
      (max |(panel.corners.getD 1 ⟨0, 0, 0⟩).x - (panel.corners.getD 0 ⟨0, 0, 0⟩).x|
        |(panel.corners.getD 3 ⟨0, 0, 0⟩).z - (panel.corners.getD 0 ⟨0, 0, 0⟩).z|) hd with
    heq | ⟨hpos, h5⟩
  · rw [heq]
  · rw [h5]
    refine List.Sublist.append ?_ ?_
    · exact loop_sublist
        (fun zpos => GridLine.mk
          (project_to_screen ⟨(panel.corners.getD 0 ⟨0, 0, 0⟩).x,
            (panel.corners.getD 0 ⟨0, 0, 0⟩).y, zpos⟩ view proj W H)
          (project_to_screen ⟨(panel.corners.getD 1 ⟨0, 0, 0⟩).x,
            (panel.corners.getD 0 ⟨0, 0, 0⟩).y, zpos⟩ view proj W H)
          panel.label "horizontal")
        (panel.corners.getD 0 ⟨0, 0, 0⟩).z (panel.corners.getD 3 ⟨0, 0, 0⟩).z
        _ hpos
    · exact loop_sublist
        (fun xpos => GridLine.mk
          (project_to_screen ⟨xpos, (panel.corners.getD 0 ⟨0, 0, 0⟩).y,
            (panel.corners.getD 0 ⟨0, 0, 0⟩).z⟩ view proj W H)
          (project_to_screen ⟨xpos, (panel.corners.getD 0 ⟨0, 0, 0⟩).y,
            (panel.corners.getD 3 ⟨0, 0, 0⟩).z⟩ view proj W H)
          panel.label "vertical")
        (panel.corners.getD 0 ⟨0, 0, 0⟩).x (panel.corners.getD 1 ⟨0, 0, 0⟩).x
        _ hpos

/-- Dropping the density from 1 to 0.2 turns a wall panel's interior lines
into a sublist. -/
lemma wall_grid_sublist (c : GridConfig) (panel : Panel) (view proj : Matrix4x4)
    (W H : ℕ) (hd : c.density = 1) :
    List.Sublist (generate_wall_grid { c with density := 0.2 } panel view proj W H)
      (generate_wall_grid c panel view proj W H) := by
  simp only [generate_wall_grid]
  by_cases hlabel : panel.label = "Left Wall"
  · simp only [if_pos hlabel]
    by_cases hz : |(panel.corners.getD 1 ⟨0, 0, 0⟩).z - (panel.corners.getD 0 ⟨0, 0, 0⟩).z| = 0 ∨
        |(panel.corners.getD 3 ⟨0, 0, 0⟩).y - (panel.corners.getD 0 ⟨0, 0, 0⟩).y| = 0
    · simp only [if_pos hz]
      exact List.Sublist.refl _
    · simp only [if_neg hz]
      refine List.Sublist.append ?_ ?_
      · rcases spacing_rel c
            |(panel.corners.getD 3 ⟨0, 0, 0⟩).y - (panel.corners.getD 0 ⟨0, 0, 0⟩).y| hd with
          heq | ⟨hpos, h5⟩
        · rw [heq]
        · rw [h5]
          exact loop_sublist
            (fun ypos => GridLine.mk
              (project_to_screen ⟨(panel.corners.getD 0 ⟨0, 0, 0⟩).x, ypos,
                (panel.corners.getD 0 ⟨0, 0, 0⟩).z⟩ view proj W H)
              (project_to_screen ⟨(panel.corners.getD 1 ⟨0, 0, 0⟩).x, ypos,
                (panel.corners.getD 1 ⟨0, 0, 0⟩).z⟩ view proj W H)
              panel.label "horizontal")
            (panel.corners.getD 0 ⟨0, 0, 0⟩).y (panel.corners.getD 3 ⟨0, 0, 0⟩).y
            _ hpos
      · rcases spacing_rel c
            |(panel.corners.getD 1 ⟨0, 0, 0⟩).z - (panel.corners.getD 0 ⟨0, 0, 0⟩).z| hd with
          heq | ⟨hpos, h5⟩
        · rw [heq]
        · rw [h5]
          exact loop_sublist
            (fun zpos => GridLine.mk
              (project_to_screen ⟨(panel.corners.getD 0 ⟨0, 0, 0⟩).x,
                (panel.corners.getD 0 ⟨0, 0, 0⟩).y, zpos⟩ view proj W H)
              (project_to_screen ⟨(panel.corners.getD 3 ⟨0, 0, 0⟩).x,
                (panel.corners.getD 3 ⟨0, 0, 0⟩).y, zpos⟩ view proj W H)
              panel.label "vertical")
            (panel.corners.getD 0 ⟨0, 0, 0⟩).z (panel.corners.getD 1 ⟨0, 0, 0⟩).z
            _ hpos
  · simp only [if_neg hlabel]
    by_cases hz : |(panel.corners.getD 1 ⟨0, 0, 0⟩).x - (panel.corners.getD 0 ⟨0, 0, 0⟩).x| = 0 ∨
        |(panel.corners.getD 3 ⟨0, 0, 0⟩).y - (panel.corners.getD 0 ⟨0, 0, 0⟩).y| = 0
    · simp only [if_pos hz]
      exact List.Sublist.refl _
    · simp only [if_neg hz]
      refine List.Sublist.append ?_ ?_
      · rcases spacing_rel c
            |(panel.corners.getD 3 ⟨0, 0, 0⟩).y - (panel.corners.getD 0 ⟨0, 0, 0⟩).y| hd with
          heq | ⟨hpos, h5⟩
        · rw [heq]
        · rw [h5]
          exact loop_sublist
            (fun ypos => GridLine.mk
              (project_to_screen ⟨(panel.corners.getD 0 ⟨0, 0, 0⟩).x, ypos,
                (panel.corners.getD 0 ⟨0, 0, 0⟩).z⟩ view proj W H)
              (project_to_screen ⟨(panel.corners.getD 1 ⟨0, 0, 0⟩).x, ypos,
                (panel.corners.getD 1 ⟨0, 0, 0⟩).z⟩ view proj W H)
              panel.label "horizontal")
            (panel.corners.getD 0 ⟨0, 0, 0⟩).y (panel.corners.getD 3 ⟨0, 0, 0⟩).y
            _ hpos
      · rcases spacing_rel c
            |(panel.corners.getD 1 ⟨0, 0, 0⟩).x - (panel.corners.getD 0 ⟨0, 0, 0⟩).x| hd with
          heq | ⟨hpos, h5⟩
        · rw [heq]
        · rw [h5]
          exact loop_sublist
            (fun xpos => GridLine.mk
              (project_to_screen ⟨xpos, (panel.corners.getD 0 ⟨0, 0, 0⟩).y,
                (panel.corners.getD 0 ⟨0, 0, 0⟩).z⟩ view proj W H)
              (project_to_screen ⟨xpos, (panel.corners.getD 3 ⟨0, 0, 0⟩).y,
                (panel.corners.getD 3 ⟨0, 0, 0⟩).z⟩ view proj W H)
              panel.label "vertical")
            (panel.corners.getD 0 ⟨0, 0, 0⟩).x (panel.corners.getD 1 ⟨0, 0, 0⟩).x
            _ hpos

/-- Interior-grid sublist under the density drop. -/
lemma interior_grid_sublist (c : GridConfig) (panel : Panel) (view proj : Matrix4x4)
    (W H : ℕ) (hd : c.density = 1) :
    List.Sublist (generate_interior_grid { c with density := 0.2 } panel view proj W H)
      (generate_interior_grid c panel view proj W H) := by
  unfold generate_interior_grid
  by_cases h4 : panel.corners.length ≠ 4
  · rw [if_pos h4, if_pos h4]
  · rw [if_neg h4, if_neg h4]
    by_cases hf : panel.panel_type = "floor"
    · rw [if_pos hf, if_pos hf]
      exact floor_grid_sublist c panel view proj W H hd
    · rw [if_neg hf, if_neg hf]
      by_cases hw : panel.panel_type = "wall"
      · rw [if_pos hw, if_pos hw]
        exact wall_grid_sublist c panel view proj W H hd
      · rw [if_neg hw, if_neg hw]

/-- Per-panel sublist under the density drop (boundary lines are identical). -/
lemma panel_grid_sublist (c : GridConfig) (panel : Panel) (view proj : Matrix4x4)
    (W H : ℕ) (hd : c.density = 1) :
    List.Sublist (generate_panel_grid { c with density := 0.2 } panel view proj W H)
      (generate_panel_grid c panel view proj W H) := by
  unfold generate_panel_grid
  have hflag : ({ c with density := 0.2 } : GridConfig).show_panel_boundaries =
      c.show_panel_boundaries := rfl
  rw [hflag]
  exact List.Sublist.append (List.Sublist.refl _)
    (interior_grid_sublist c panel view proj W H hd)

/-- `flatMap` preserves pointwise sublists. -/
lemma flatMap_sublist {α β : Type} (l : List α) (f g : α → List β)
    (h : ∀ a ∈ l, List.Sublist (f a) (g a)) :
    List.Sublist (l.flatMap f) (l.flatMap g) := by
  induction l with
  | nil => simp
  | cons hd tl ih =>
    simp only [List.flatMap_cons]
    exact List.Sublist.append (h hd (by simp)) (ih fun a ha => h a (by simp [ha]))

/-- Density 0.2 never yields more lines than density 1 for the same panels,
camera and screen. -/
lemma generate_grid_length_mono (c : GridConfig) (panels : List Panel) (camera : Camera)
    (W H : ℕ) (hd : c.density = 1) :
    (generate_grid { c with density := 0.2 } panels camera W H).length ≤
      (generate_grid c panels camera W H).length := by
  apply List.Sublist.length_le
  simp only [generate_grid]
  have hmin : (fun line => decide (({ c with density := 0.2 } : GridConfig).min_line_length ≤
      calculate_line_length line)) =
      (fun line => decide (c.min_line_length ≤ calculate_line_length line)) := rfl
  rw [hmin]
  exact List.Sublist.filter _
    (flatMap_sublist panels _ _ fun p _ =>
      panel_grid_sublist c p (camera.get_view_matrix).1
        ((camera.get_view_matrix).2.get_projection_matrix ((W : ℝ) / (H : ℝ))).1 W H hd)

/-- C7: grid spacing is antitone in density; for a positive extent it lies in
`[0.02 e, 0.5 e]` (strictly positive, at most half the extent) at *every*
density `d`; and for identical panels, camera and screen, density 1.0 yields
at least as many generated lines as density 0.2. -/
theorem grid_spacing_density_monotone (c : GridConfig) (e d1 d2 d : ℝ)
    (he : 0 < e) (hd1 : 0 < d1) (hd12 : d1 ≤ d2)
    (panels : List Panel) (camera : Camera) (W H : ℕ) (hden : c.density = 1) :
    (calculate_grid_spacing { c with density := d2 } e ≤
        calculate_grid_spacing { c with density := d1 } e) ∧
    (e * 0.02 ≤ calculate_grid_spacing { c with density := d } e ∧
      calculate_grid_spacing { c with density := d } e ≤ e * 0.5) ∧
    ((generate_grid { c with density := 0.2 } panels camera W H).length ≤
        (generate_grid c panels camera W H).length) :=
  ⟨spacing_antitone { c with density := d1 } { c with density := d2 } e he hd1 hd12,
    spacing_bounds { c with density := d } e he,
    generate_grid_length_mono c panels camera W H hden⟩

/-- C7 witness: the density-monotonicity theorem holds at a concrete
configuration, extent 10, densities 1/2 ≤ 1, and bound density 100 (where the
lower clamp is active). -/
theorem grid_spacing_density_monotone_witness :
    (0 : ℝ) < 10 ∧ (0 : ℝ) < 1 / 2 ∧ (1 / 2 : ℝ) ≤ 1 ∧
      ({ std_grid_config with density := 1 } : GridConfig).density = 1 ∧
      ((calculate_grid_spacing
            { { std_grid_config with density := 1 } with density := 1 } 10 ≤
          calculate_grid_spacing
            { { std_grid_config with density := 1 } with density := 1 / 2 } 10) ∧
        (10 * 0.02 ≤ calculate_grid_spacing
            { { std_grid_config with density := 1 } with density := 100 } 10 ∧
          calculate_grid_spacing
            { { std_grid_config with density := 1 } with density := 100 } 10 ≤ 10 * 0.5) ∧
        ((generate_grid { { std_grid_config with density := 1 } with density := 0.2 }
            [] std_camera 100 100).length ≤
          (generate_grid { std_grid_config with density := 1 }
            [] std_camera 100 100).length)) :=
  ⟨by norm_num, by norm_num, by norm_num, rfl,
    grid_spacing_density_monotone { std_grid_config with density := 1 } 10 (1 / 2) 1 100
      (by norm_num) (by norm_num) (by norm_num) [] std_camera 100 100 rfl⟩
